import Mathlib

/-!
# Verification of the sqlx-paginated query construction engine

Shallow embedding of the query-builder core of the `sqlx-paginated` crate:
`FilterValue`/`FilterOperator`/`QueryParams` (src/paginated_query_as/models.rs),
the dialect strategy (src/paginated_query_as/internal/dialects/), the column
denylist (src/paginated_query_as/internal/protection/column_protection_consts.rs),
`QueryBuilder::{is_column_safe, with_search, with_filters}`
(src/paginated_query_as/builders/query_builders/query_builder.rs), and the
pure total-pages arithmetic of `PaginatedQueryBuilder::fetch_paginated`
(src/paginated_query_as/builders/paginated_query_builder.rs).

Modelling conventions:
* Rust `String` values are Lean `String`; argument buffers (`PgArguments`)
  are modelled as `List String`, which is faithful because every value the
  builder ever binds on these paths is a `String` (`to_bindable_string`
  results and the search pattern); `Arguments::add` never fails for strings
  and the code discards its error anyway (`unwrap_or_default`).
* `HashMap` fields are association lists; the code only uses keyed lookup
  and membership, never iteration order, on those maps.
* `f64`/`Uuid` payloads of `FilterValue` are carried as their rendered
  string forms: the builder never computes with them, it only renders them
  (`to_string`) into the argument list.
* Rust's `format!("{}", n)` decimal rendering of `usize` is embedded as
  `natDigitString` below.
-/

/-- `FieldType` from internal/internal_utils.rs. -/
inductive FieldType where
  | string
  | uuid
  | int
  | float
  | bool
  | dateTime
  | date
  | time
  | unknown
deriving DecidableEq, Repr

/-- `FilterOperator` from models.rs (`In`/`NotIn`/`Contains` renamed to
`inOp`/`notInOp`/`containsOp` because of Lean keyword/name clashes). -/
inductive FilterOperator where
  | eq
  | ne
  | gt
  | lt
  | gte
  | lte
  | like
  | ilike
  | inOp
  | notInOp
  | isNull
  | isNotNull
  | between
  | containsOp
deriving DecidableEq, Repr

/-- `FilterValue` from models.rs. `Float` and `Uuid` payloads are carried as
their rendered decimal/hyphenated strings (see module header). -/
inductive FilterValue where
  | str (s : String)
  | uuid (u : String)
  | int (i : Int)
  | float (f : String)
  | bool (b : Bool)
  | dateTime (dt : String)
  | date (d : String)
  | time (t : String)
  | array (arr : List FilterValue)
  | null
deriving Repr

/-- Decimal digit character for `d < 10`, as produced by Rust's integer
`Display`. -/
def digitChar (d : Nat) : Char := Char.ofNat (48 + d)

/-- Decimal digit list of a natural number (most significant first), the
digit sequence Rust's `format!("{}", n)` emits. -/
def natDigits (n : Nat) : List Char :=
  if _h : n < 10 then [digitChar n]
  else natDigits (n / 10) ++ [digitChar (n % 10)]
decreasing_by
  exact Nat.div_lt_self (by omega) (by omega)

/-- Decimal rendering of a natural number, Rust `format!("{}", n)`. -/
def natDigitString (n : Nat) : String := String.mk (natDigits n)

/-- Decimal rendering of an `i64`, Rust `format!("{}", i)`. -/
def intDigitString (i : Int) : String :=
  if i < 0 then "-" ++ natDigitString i.natAbs else natDigitString i.natAbs

/-- `FilterValue::to_bindable_string` from models.rs. -/
def FilterValue.to_bindable_string : FilterValue → String
  | .str s => s
  | .int i => intDigitString i
  | .float f => f
  | .bool b => if b then "true" else "false"
  | .uuid u => u
  | .dateTime dt => dt
  | .date d => d
  | .time t => t
  | .array arr => match arr with
      | [] => ""
      | v :: _ => v.to_bindable_string
  | .null => ""

/-- `FilterValue::to_bindable_strings` from models.rs. -/
def FilterValue.to_bindable_strings : FilterValue → List String
  | .array arr => arr.map (fun v => v.to_bindable_string)
  | v => [v.to_bindable_string]

/-- `FilterValue::to_field_type` from models.rs. -/
def FilterValue.to_field_type : FilterValue → FieldType
  | .str _ => .string
  | .int _ => .int
  | .float _ => .float
  | .bool _ => .bool
  | .uuid _ => .uuid
  | .dateTime _ => .dateTime
  | .date _ => .date
  | .time _ => .time
  | .array arr => match arr with
      | [] => .unknown
      | v :: _ => v.to_field_type
  | .null => .unknown

/-- `QueryFilter` from models.rs. -/
structure QueryFilter where
  field : String
  operator : FilterOperator
  value : FilterValue

/-- `QuerySearchParams` from internal/models_internal.rs. -/
structure QuerySearchParams where
  search : Option String
  search_columns : Option (List String)

/-- `QueryPaginationParams` from internal/models_internal.rs. -/
structure QueryPaginationParams where
  page : Int
  page_size : Int

/-- `QuerySortDirection` from models.rs. -/
inductive QuerySortDirection where
  | ascending
  | descending
deriving DecidableEq, Repr

/-- `QuerySortParams` from internal/models_internal.rs. -/
structure QuerySortParams where
  sort_direction : QuerySortDirection
  sort_column : String

/-- `QueryParams` from models.rs (the phantom model-type parameter is erased;
the date-range extension of the `models/` layer is not used by the claims). -/
structure QueryParams where
  pagination : QueryPaginationParams
  sort : QuerySortParams
  search : QuerySearchParams
  filters : List QueryFilter

/-- `QueryDialect` trait from internal/dialects/query_dialect.rs. -/
structure QueryDialect where
  quote_identifier : String → String
  placeholder : Nat → String
  type_cast : FieldType → String

/-- Character-level embedding of `ident.replace('"', "\"\"")` (the pattern is
a single character, so per-character expansion is exact). -/
def escapeQuotes (s : String) : String :=
  String.mk (s.data.foldr (fun c acc => if c = '"' then '"' :: '"' :: acc else c :: acc) [])

/-- `PostgresDialect::quote_identifier`. -/
def pgQuoteIdentifier (ident : String) : String := "\"" ++ escapeQuotes ident ++ "\""

/-- `PostgresDialect::placeholder`: `format!("${}", position)`. -/
def pgPlaceholder (position : Nat) : String := "$" ++ natDigitString position

/-- Modelled from the spec: the `FieldType`-keyed Postgres cast function
(`get_postgres_type_casting` as used through `QueryDialect::type_cast`) is not
under src/ (the checked-in postgres_dialect.rs holds a stale value-string
version that does not match the `QueryDialect` trait). Spec §4.1: the
Postgres-style dialect returns explicit cast suffixes `::bigint`, `::boolean`,
`::uuid`, `::timestamptz`, `::date`, `::time`, `::float8`; string/unknown
types return empty. -/
def pgTypeCast : FieldType → String
  | .int => "::bigint"
  | .float => "::float8"
  | .bool => "::boolean"
  | .uuid => "::uuid"
  | .dateTime => "::timestamptz"
  | .date => "::date"
  | .time => "::time"
  | .string => ""
  | .unknown => ""

/-- `PostgresDialect` from internal/dialects/postgres_dialect.rs (with the
spec-modelled `type_cast`, see `pgTypeCast`). -/
def postgresDialect : QueryDialect :=
  { quote_identifier := pgQuoteIdentifier
    placeholder := pgPlaceholder
    type_cast := pgTypeCast }

/-- `SqliteDialect` from internal/dialects/sqlite_dialect.rs:
`placeholder` is always `?` and `get_sqlite_type_casting` returns the empty
string on every branch. -/
def sqliteDialect : QueryDialect :=
  { quote_identifier := pgQuoteIdentifier
    placeholder := fun _ => "?"
    type_cast := fun _ => "" }

/-- ASCII lower-casing of one character (Rust `char::to_lowercase` restricted
to the ASCII identifiers that occur in column names and the denylist). -/
def lowerAscii (c : Char) : Char :=
  if 'A' ≤ c ∧ c ≤ 'Z' then Char.ofNat (c.toNat + 32) else c

/-- Rust `str::to_lowercase`, character-wise (see `lowerAscii`). -/
def rustToLower (s : String) : String := String.mk (s.data.map lowerAscii)

/-- Rust `str::starts_with`, character-wise. -/
def rustStartsWith (s pre : String) : Bool := pre.data.isPrefixOf s.data

/-- Rust `char::is_whitespace`: the Unicode White_Space property —
U+0009–U+000D, U+0020, U+0085, U+00A0, U+1680, U+2000–U+200A, U+2028,
U+2029, U+202F, U+205F, U+3000. -/
def rustIsWhitespace (c : Char) : Bool :=
  decide ((0x09 ≤ c.toNat ∧ c.toNat ≤ 0x0D) ∨ c.toNat = 0x20 ∨ c.toNat = 0x85 ∨
    c.toNat = 0xA0 ∨ c.toNat = 0x1680 ∨
    (0x2000 ≤ c.toNat ∧ c.toNat ≤ 0x200A) ∨ c.toNat = 0x2028 ∨ c.toNat = 0x2029 ∨
    c.toNat = 0x202F ∨ c.toNat = 0x205F ∨ c.toNat = 0x3000)

/-- Rust `str::trim`, character-wise: strip leading and trailing Unicode
whitespace (`rustIsWhitespace`). -/
def rustTrim (s : String) : String :=
  String.mk (((s.data.dropWhile rustIsWhitespace).reverse.dropWhile
    rustIsWhitespace).reverse)

/-- Modelled from the spec: the `ColumnProtection` struct and its `is_safe`
are not under src/ (only the denylist constants and the call sites are).
Spec §4.3: the column, or its case-insensitive prefix, must not match a
dialect-specific blocked list of system identifiers. -/
structure ColumnProtection where
  blocked : List String

/-- Modelled from the spec: `ColumnProtection::is_safe` — safe iff no entry of
the blocked list is a case-insensitive prefix of the column. -/
def ColumnProtection.is_safe (p : ColumnProtection) (column : String) : Bool :=
  !(p.blocked.any (fun b => rustStartsWith (rustToLower column) b))

/-- `COLUMN_PROTECTION_BLOCKED_POSTGRES` from
internal/protection/column_protection_consts.rs. -/
def COLUMN_PROTECTION_BLOCKED_POSTGRES : List String :=
  ["pg_", "information_schema.", "oid", "tableoid", "xmin", "xmax",
   "cmin", "cmax", "ctid", "pg_catalog", "pg_toast", "pg_temp", "pg_internal"]

/-- The Postgres `ColumnProtection::default()`: the Postgres denylist. -/
def postgresColumnProtection : ColumnProtection :=
  { blocked := COLUMN_PROTECTION_BLOCKED_POSTGRES }

/-- `ComputedProperty` from internal/models_internal.rs. -/
structure ComputedProperty where
  expression : String
  joins : List String
  field_type : FieldType

/-- `QueryBuilder` state from query_builder.rs (`table_prefix` in the source;
renamed here to `tablePrefixOpt`). `mappers` keeps the source's
column-keyed `(table_column, optional placeholder)` mapper closures. -/
structure QueryBuilder where
  conditions : List String
  arguments : List String
  mappers : List (String × (String → String → String × Option String))
  valid_columns : List String
  field_meta : List (String × FieldType)
  protection : Option ColumnProtection
  protection_enabled : Bool
  column_validation_enabled : Bool
  dialect : QueryDialect
  computed_properties : List (String × ComputedProperty)
  active_joins : List String
  tablePrefixOpt : Option String

/-- `QueryBuilder::has_column`. -/
def QueryBuilder.has_column (qb : QueryBuilder) (column : String) : Bool :=
  qb.valid_columns.contains column || (qb.computed_properties.lookup column).isSome

/-- `QueryBuilder::is_column_safe` (query_builder.rs lines 65-85). -/
def QueryBuilder.is_column_safe (qb : QueryBuilder) (column : String) : Bool :=
  if (qb.computed_properties.lookup column).isSome then
    true
  else
    let column_exists :=
      if qb.column_validation_enabled then qb.valid_columns.contains column else true
    if !qb.protection_enabled then
      column_exists
    else
      match qb.protection with
      | some protection => column_exists && protection.is_safe column
      | none => column_exists

/-- `QueryBuilder::activate_joins`. -/
def QueryBuilder.activate_joins (qb : QueryBuilder) (property : ComputedProperty) :
    QueryBuilder :=
  { qb with
    active_joins :=
      property.joins.foldl
        (fun acc j => if acc.contains j then acc else acc ++ [j]) qb.active_joins }

/-- `QueryBuilder::format_column`. -/
def QueryBuilder.format_column (qb : QueryBuilder) (column : String) : String :=
  match qb.tablePrefixOpt with
  | some pre => qb.dialect.quote_identifier pre ++ "." ++ qb.dialect.quote_identifier column
  | none => qb.dialect.quote_identifier column

/-- Effective cast type, extracted verbatim from query_builder.rs lines
375-379: the column's type when known, otherwise the filter value's own
inferred type. -/
def effectiveFieldType (field_type : FieldType) (v : FilterValue) : FieldType :=
  if field_type = FieldType.unknown then v.to_field_type else field_type

/-- One iteration of the `filter_map` closure inside
`QueryBuilder::with_search` (query_builder.rs lines 254-299): the optional
condition fragment for one search column, paired with the computed property
to activate if one was used. -/
def searchFragment (qb : QueryBuilder) (next_argument : Nat) (search : String)
    (column : String) : Option (String × Option ComputedProperty) :=
  match qb.computed_properties.lookup column with
  | some prop =>
    let placeholder := qb.dialect.placeholder next_argument
    if prop.field_type = FieldType.string then
      some ("LOWER(" ++ prop.expression ++ ") LIKE LOWER(" ++ placeholder ++ ")", some prop)
    else
      some ("(" ++ prop.expression ++ ")::text LIKE " ++ placeholder, some prop)
  | none =>
    let mapper := qb.mappers.lookup column
    if mapper.isNone && !(qb.is_column_safe column) then
      none
    else
      let field_type := (qb.field_meta.lookup column).getD FieldType.unknown
      let mapped_column := mapper.map (fun m => m column search)
      let table_column := (mapped_column.map Prod.fst).getD (qb.format_column column)
      let placeholder :=
        (mapped_column.bind Prod.snd).getD (qb.dialect.placeholder next_argument)
      if field_type = FieldType.string then
        some ("LOWER(" ++ table_column ++ ") LIKE LOWER(" ++ placeholder ++ ")", none)
      else
        some (table_column ++ "::text LIKE " ++ placeholder, none)

/-- Rust `Vec::<String>::join(sep)`. -/
def joinSep (sep : String) : List String → String
  | [] => ""
  | [x] => x
  | x :: y :: xs => x ++ sep ++ joinSep sep (y :: xs)

/-- `QueryBuilder::with_search` (query_builder.rs lines 245-315). -/
def QueryBuilder.with_search (qb : QueryBuilder) (params : QueryParams) : QueryBuilder :=
  match params.search.search with
  | none => qb
  | some search =>
    match params.search.search_columns with
    | none => qb
    | some columns =>
      if !columns.isEmpty && !(rustTrim search).data.isEmpty then
        let pattern := "%" ++ search ++ "%"
        let next_argument := qb.arguments.length + 1
        let results := columns.filterMap (searchFragment qb next_argument search)
        let search_conditions := results.map Prod.fst
        let joins_to_activate := results.filterMap Prod.snd
        let qb1 := joins_to_activate.foldl QueryBuilder.activate_joins qb
        if !search_conditions.isEmpty then
          { qb1 with
            conditions :=
              qb1.conditions ++ ["(" ++ joinSep " OR " search_conditions ++ ")"]
            arguments := qb1.arguments ++ [pattern] }
        else qb1
      else qb

/-- The per-operator body of the `with_filters` loop (query_builder.rs lines
384-489), after the column has been resolved to `table_column` and
`field_type`. Appends the condition and its bound values. -/
def applyFilterOn (qb : QueryBuilder) (table_column : String) (field_type : FieldType)
    (filter : QueryFilter) : QueryBuilder :=
  let effective_field_type := effectiveFieldType field_type filter.value
  let type_cast := qb.dialect.type_cast effective_field_type
  match filter.operator with
  | .eq =>
    let value := filter.value.to_bindable_string
    let placeholder := qb.dialect.placeholder (qb.arguments.length + 1)
    { qb with
      arguments := qb.arguments ++ [value]
      conditions := qb.conditions ++ [table_column ++ " = " ++ placeholder ++ type_cast] }
  | .ne =>
    let value := filter.value.to_bindable_string
    let placeholder := qb.dialect.placeholder (qb.arguments.length + 1)
    { qb with
      arguments := qb.arguments ++ [value]
      conditions := qb.conditions ++ [table_column ++ " != " ++ placeholder ++ type_cast] }
  | .gt =>
    let value := filter.value.to_bindable_string
    let placeholder := qb.dialect.placeholder (qb.arguments.length + 1)
    { qb with
      arguments := qb.arguments ++ [value]
      conditions := qb.conditions ++ [table_column ++ " > " ++ placeholder ++ type_cast] }
  | .lt =>
    let value := filter.value.to_bindable_string
    let placeholder := qb.dialect.placeholder (qb.arguments.length + 1)
    { qb with
      arguments := qb.arguments ++ [value]
      conditions := qb.conditions ++ [table_column ++ " < " ++ placeholder ++ type_cast] }
  | .gte =>
    let value := filter.value.to_bindable_string
    let placeholder := qb.dialect.placeholder (qb.arguments.length + 1)
    { qb with
      arguments := qb.arguments ++ [value]
      conditions := qb.conditions ++ [table_column ++ " >= " ++ placeholder ++ type_cast] }
  | .lte =>
    let value := filter.value.to_bindable_string
    let placeholder := qb.dialect.placeholder (qb.arguments.length + 1)
    { qb with
      arguments := qb.arguments ++ [value]
      conditions := qb.conditions ++ [table_column ++ " <= " ++ placeholder ++ type_cast] }
  | .like =>
    let value := filter.value.to_bindable_string
    let placeholder := qb.dialect.placeholder (qb.arguments.length + 1)
    let condition :=
      if effective_field_type ≠ FieldType.string ∧ effective_field_type ≠ FieldType.unknown then
        table_column ++ "::text LIKE " ++ placeholder
      else
        table_column ++ " LIKE " ++ placeholder
    { qb with
      arguments := qb.arguments ++ [value]
      conditions := qb.conditions ++ [condition] }
  | .ilike =>
    let value := filter.value.to_bindable_string
    let placeholder := qb.dialect.placeholder (qb.arguments.length + 1)
    let condition :=
      if effective_field_type ≠ FieldType.string ∧ effective_field_type ≠ FieldType.unknown then
        table_column ++ "::text ILIKE " ++ placeholder
      else
        table_column ++ " ILIKE " ++ placeholder
    { qb with
      arguments := qb.arguments ++ [value]
      conditions := qb.conditions ++ [condition] }
  | .inOp =>
    let values := filter.value.to_bindable_strings
    let folded := values.foldl
      (fun (acc : List String × List String) v =>
        let placeholder := qb.dialect.placeholder (acc.1.length + 1)
        (acc.1 ++ [v], acc.2 ++ [placeholder ++ type_cast]))
      (qb.arguments, [])
    { qb with
      arguments := folded.1
      conditions :=
        qb.conditions ++
          [table_column ++ " IN (" ++ joinSep ", " folded.2 ++ ")"] }
  | .notInOp =>
    let values := filter.value.to_bindable_strings
    let folded := values.foldl
      (fun (acc : List String × List String) v =>
        let placeholder := qb.dialect.placeholder (acc.1.length + 1)
        (acc.1 ++ [v], acc.2 ++ [placeholder ++ type_cast]))
      (qb.arguments, [])
    { qb with
      arguments := folded.1
      conditions :=
        qb.conditions ++
          [table_column ++ " NOT IN (" ++ joinSep ", " folded.2 ++ ")"] }
  | .isNull =>
    { qb with conditions := qb.conditions ++ [table_column ++ " IS NULL"] }
  | .isNotNull =>
    { qb with conditions := qb.conditions ++ [table_column ++ " IS NOT NULL"] }
  | .between =>
    let values := filter.value.to_bindable_strings
    if values.length ≥ 2 then
      let placeholder1 := qb.dialect.placeholder (qb.arguments.length + 1)
      let arguments1 := qb.arguments ++ [values.getD 0 ""]
      let placeholder2 := qb.dialect.placeholder (arguments1.length + 1)
      { qb with
        arguments := arguments1 ++ [values.getD 1 ""]
        conditions :=
          qb.conditions ++
            [table_column ++ " BETWEEN " ++ placeholder1 ++ type_cast ++ " AND " ++
              placeholder2 ++ type_cast] }
    else
      qb
  | .containsOp =>
    let value := filter.value.to_bindable_string
    let placeholder := qb.dialect.placeholder (qb.arguments.length + 1)
    { qb with
      arguments := qb.arguments ++ [value]
      conditions := qb.conditions ++ [table_column ++ " @> " ++ placeholder ++ type_cast] }

/-- One iteration of the `with_filters` loop: resolve the column (computed
property first, else the safety check with silent skip), then apply the
operator. -/
def applyFilter (qb : QueryBuilder) (filter : QueryFilter) : QueryBuilder :=
  match qb.computed_properties.lookup filter.field with
  | some prop =>
    applyFilterOn (qb.activate_joins prop) prop.expression prop.field_type filter
  | none =>
    if !(qb.is_column_safe filter.field) then
      qb
    else
      applyFilterOn qb (qb.format_column filter.field)
        ((qb.field_meta.lookup filter.field).getD FieldType.unknown) filter

/-- `QueryBuilder::with_filters` (query_builder.rs lines 353-492). -/
def QueryBuilder.with_filters (qb : QueryBuilder) (params : QueryParams) : QueryBuilder :=
  params.filters.foldl applyFilter qb

/-- `QueryBuilder::<T, Postgres>::new()` from postgres_query_builder.rs.
`field_meta` is the reflection-derived column map (`get_struct_field_meta`),
taken here as a parameter; `valid_columns` is its key set, as in the source. -/
def mkPostgresBuilder (field_meta : List (String × FieldType)) : QueryBuilder :=
  { conditions := []
    arguments := []
    mappers := []
    valid_columns := field_meta.map Prod.fst
    field_meta := field_meta
    protection := some postgresColumnProtection
    protection_enabled := true
    column_validation_enabled := true
    dialect := postgresDialect
    computed_properties := []
    active_joins := []
    tablePrefixOpt := none }

/-- `QueryBuilder::with_table_prefix`. -/
def QueryBuilder.withTablePrefixStr (qb : QueryBuilder) (pre : String) : QueryBuilder :=
  { qb with tablePrefixOpt := some pre }

/-- `build_query_with_safe_defaults::<T, Postgres>` from
examples/query_builder_examples.rs: the default condition-building function
installed by `PaginatedQueryBuilder::new_with_defaults`, returning the
condition list and the argument list. -/
def build_query_with_safe_defaults (field_meta : List (String × FieldType))
    (params : QueryParams) : List String × List String :=
  let qb := (((mkPostgresBuilder field_meta).withTablePrefixStr "base_query").with_search
      params).with_filters params
  (qb.conditions, qb.arguments)

/-- The `available_pages` computation inside `fetch_paginated`
(paginated_query_builder.rs lines 294-297 and 455-458), on `i64`:
`match count { 0 => 0, _ => (count + page_size - 1) / page_size }` with
Rust's truncating division. -/
def available_pages (count page_size : Int) : Int :=
  if count = 0 then 0 else Int.tdiv (count + page_size - 1) page_size

/-- The two invocations of the condition-building function inside
`fetch_paginated` (paginated_query_builder.rs lines 269 and 286): the first
produces the page query's conditions/arguments, the second the count query's
arguments, because argument buffers are single-use. -/
def fetch_paginated_condition_calls (field_meta : List (String × FieldType))
    (params : QueryParams) :
    (List String × List String) × (List String × List String) :=
  let first := build_query_with_safe_defaults field_meta params
  let second := build_query_with_safe_defaults field_meta params
  (first, second)

/-- The claim's reading of the effective cast type (C5): the column's
inferred `FieldType` when it is not `Unknown`, otherwise the type inferred
from the filter value itself, with an `Array` falling back to its first
element's type and `Null` yielding `Unknown`. -/
def effectiveFieldTypeClaim (field_type : FieldType) (v : FilterValue) : FieldType :=
  if field_type ≠ FieldType.unknown then field_type
  else match v with
    | .array arr => match arr.head? with
        | some w => w.to_field_type
        | none => .unknown
    | .null => .unknown
    | w => w.to_field_type

/-- Whether a column name matches the Postgres denylist (a blocked entry is a
case-insensitive prefix of it). -/
def pgDenylisted (column : String) : Bool :=
  COLUMN_PROTECTION_BLOCKED_POSTGRES.any (fun b => rustStartsWith (rustToLower column) b)

/-- Scanner for numbered placeholders: collects, in order, every maximal
digit run that immediately follows a `$` in a character list. -/
def scanL : List Char → List (List Char)
  | [] => []
  | c :: rest =>
    if c = '$' then
      match rest.takeWhile Char.isDigit with
      | [] => scanL (rest.dropWhile Char.isDigit)
      | d :: ds => (d :: ds) :: scanL (rest.dropWhile Char.isDigit)
    else scanL rest
termination_by l => l.length
decreasing_by
  all_goals
    simp only [List.length_cons]
    first
      | exact Nat.lt_succ_of_le (List.dropWhile_sublist _).length_le
      | exact Nat.lt_succ_of_le (Nat.le_refl _)

/-- Every placeholder occurrence in a SQL fragment, in order: the digit
strings following each `$`. -/
def placeholderOccurrences (s : String) : List String :=
  (scanL s.data).map String.mk

/-- The distinct placeholder ordinals a SQL fragment mentions, in first-use
order. -/
def placeholderMentions (s : String) : List String :=
  (placeholderOccurrences s).dedup

/-- A string with no `$` character, so that it cannot interfere with
numbered-placeholder scanning. -/
def dollarFree (s : String) : Bool := !(s.data.contains '$')

/-- The lockstep certificate of claim C1: the conditions list `cs`, read in
order starting with `n` arguments already bound, mentions in each condition
exactly the placeholder ordinals of the arguments bound for it, consecutively
numbered, ending with `k` arguments bound in total. -/
inductive PlaceholderAligned : List String → Nat → Nat → Prop where
  | nil : ∀ n, PlaceholderAligned [] n n
  | cons : ∀ (c : String) (cs : List String) (n m k : Nat),
      placeholderMentions c = (List.range' (n + 1) m).map natDigitString →
      PlaceholderAligned cs (n + m) k →
      PlaceholderAligned (c :: cs) n k

/-- Builder-static cleanliness for placeholder accounting: no custom mappers
(those may substitute their own placeholder text), the Postgres dialect, and
no `$` in the table prefix or computed-property SQL expressions. -/
def QueryBuilder.placeholderClean (qb : QueryBuilder) : Prop :=
  qb.mappers = [] ∧ qb.dialect = postgresDialect ∧
    (∀ pre, qb.tablePrefixOpt = some pre → dollarFree pre = true) ∧
    (∀ e ∈ qb.computed_properties, dollarFree e.2.expression = true)

/-- Parameter cleanliness for placeholder accounting: no `$` in filter field
names or search column names (they are spliced into conditions as quoted
identifiers). -/
def QueryParams.placeholderClean (p : QueryParams) : Prop :=
  (∀ f ∈ p.filters, dollarFree f.field = true) ∧
    (∀ cols, p.search.search_columns = some cols → ∀ c ∈ cols, dollarFree c = true)

/-- One builder call in a `with_search`/`with_filters` sequence (claim C1). -/
inductive BuilderOp where
  | search (params : QueryParams)
  | filters (params : QueryParams)

/-- Apply one builder call. -/
def applyBuilderOp (qb : QueryBuilder) : BuilderOp → QueryBuilder
  | .search p => qb.with_search p
  | .filters p => qb.with_filters p

/-- Apply a sequence of builder calls left to right. -/
def applyBuilderOps (qb : QueryBuilder) (ops : List BuilderOp) : QueryBuilder :=
  ops.foldl applyBuilderOp qb

/-- The parameters a `BuilderOp` carries. -/
def BuilderOp.params : BuilderOp → QueryParams
  | .search p => p
  | .filters p => p

/-- `QueryParams` carrying only a filter list (defaults elsewhere), for
stating per-filter properties of `with_filters`. -/
def mkFilterParams (fs : List QueryFilter) : QueryParams :=
  { pagination := { page := 1, page_size := 10 }
    sort := { sort_direction := .descending, sort_column := "created_at" }
    search := { search := none, search_columns := none }
    filters := fs }

/-- `QueryParams` carrying only a search request, for stating properties of
`with_search`. -/
def mkSearchParams (s : Option String) (cols : Option (List String)) : QueryParams :=
  { pagination := { page := 1, page_size := 10 }
    sort := { sort_direction := .descending, sort_column := "created_at" }
    search := { search := s, search_columns := cols }
    filters := [] }

/-- A character list that does not start with a digit (so that it cannot
extend a preceding placeholder's digit run). -/
def headNDb : List Char → Bool
  | [] => true
  | c :: _ => !c.isDigit

/-- A SQL fragment consisting of one numbered placeholder for ordinal `k`,
wrapped in `$`-free text whose part after the digits does not start with a
digit. Every per-column search fragment has this shape. -/
def FragShape (f : String) (k : Nat) : Prop :=
  ∃ pre post, f.data = pre ++ '$' :: (natDigits k ++ post) ∧
    '$' ∉ pre ∧ '$' ∉ post ∧ headNDb post = true

/-! ## Theorems -/

/-- Ceiling division on integers: for `0 ≤ a` and `0 < b`, the Rust idiom
`(a + b - 1) / b` (truncating division) computes `⌈a / b⌉`. -/
theorem tdiv_add_sub_one_eq_ceil (a b : Int) (ha : 0 ≤ a) (hb : 0 < b) :
    Int.tdiv (a + b - 1) b = ⌈(a : ℚ) / (b : ℚ)⌉ := by
  have h1 : 0 ≤ a + b - 1 := by omega
  have htd : Int.tdiv (a + b - 1) b = (a + b - 1) / b :=
    Int.tdiv_eq_ediv h1 (le_of_lt hb)
  rw [htd]
  set q := (a + b - 1) / b with hq
  have hmod := Int.ediv_add_emod (a + b - 1) b
  have hr0 : 0 ≤ (a + b - 1) % b := Int.emod_nonneg _ (by omega)
  have hr1 : (a + b - 1) % b < b := Int.emod_lt_of_pos _ hb
  have hbq : (0 : ℚ) < (b : ℚ) := by exact_mod_cast hb
  symm
  rw [Int.ceil_eq_iff]
  refine ⟨?_, ?_⟩
  · have hz : (q - 1) * b < a := by nlinarith [hmod, hr0, hr1]
    have hq2 : ((q : ℚ) - 1) < (a : ℚ) / (b : ℚ) := by
      rw [lt_div_iff₀ hbq]
      exact_mod_cast hz
    linarith
  · rw [div_le_iff₀ hbq]
    have hz : a ≤ q * b := by nlinarith [hmod, hr0, hr1]
    exact_mod_cast hz

/-- C7: when total-count is enabled, `fetch_paginated` returns `total_pages`
equal to the ceiling of `total / page_size`, and a total of 0 yields
`total_pages = 0` rather than 1 (for `page_size ≥ 1`). -/
theorem c7_total_pages_ceiling (total page_size : Int)
    (htotal : 0 ≤ total) (hps : 1 ≤ page_size) :
    available_pages total page_size = ⌈(total : ℚ) / (page_size : ℚ)⌉ ∧
      available_pages 0 page_size = 0 := by
  constructor
  · unfold available_pages
    split
    · rename_i h0
      subst h0
      simp
    · exact tdiv_add_sub_one_eq_ceil total page_size htotal (by omega)
  · simp [available_pages]

/-- Witness for C7 at `total = 25`, `page_size = 10`. -/
theorem c7_total_pages_ceiling_witness :
    ((0 : Int) ≤ 25 ∧ (1 : Int) ≤ 10) ∧
      (available_pages 25 10 = ⌈((25 : Int) : ℚ) / ((10 : Int) : ℚ)⌉ ∧
        available_pages 0 10 = 0) :=
  ⟨⟨by decide, by decide⟩, c7_total_pages_ceiling 25 10 (by decide) (by decide)⟩

/-- C2: the configured condition-building function (the safe Postgres default
installed by `new_with_defaults`) invoked twice with the same parameters, as
`fetch_paginated` does for the count query and the page query, yields
byte-identical condition lists and equal-length argument lists. -/
theorem c2_condition_building_idempotent (field_meta : List (String × FieldType))
    (params : QueryParams) :
    (fetch_paginated_condition_calls field_meta params).1.1 =
        (fetch_paginated_condition_calls field_meta params).2.1 ∧
      (fetch_paginated_condition_calls field_meta params).1.2.length =
        (fetch_paginated_condition_calls field_meta params).2.2.length :=
  ⟨rfl, rfl⟩

/-- C5: the effective cast type used by `with_filters` equals the column's
inferred `FieldType` when that is not `Unknown`, and otherwise the
`FieldType` inferred from the filter value itself, an `Array` falling back to
its first element's type and `Null` yielding `Unknown`. -/
theorem c5_effective_cast_type (ft : FieldType) (v : FilterValue) :
    effectiveFieldType ft v = effectiveFieldTypeClaim ft v := by
  cases ft <;> cases v <;> first
    | rfl
    | (rename_i arr; cases arr <;> rfl)

/-- C8: a denylisted column is still rejected by `is_column_safe` when column
validation is disabled but protection remains enabled, while an unmodeled
non-denylisted column passes the (disabled) existence check. -/
theorem c8_denylist_blocks_with_validation_disabled (qb : QueryBuilder)
    (col col2 : String)
    (hval : qb.column_validation_enabled = false)
    (hprot : qb.protection_enabled = true)
    (hpg : qb.protection = some postgresColumnProtection)
    (hnc : qb.computed_properties.lookup col = none)
    (hdeny : pgDenylisted col = true)
    (hnc2 : qb.computed_properties.lookup col2 = none)
    (hdeny2 : pgDenylisted col2 = false) :
    qb.is_column_safe col = false ∧ qb.is_column_safe col2 = true := by
  unfold QueryBuilder.is_column_safe
  rw [hnc, hnc2, hval, hprot, hpg]
  have h1 : postgresColumnProtection.is_safe col = false := by
    unfold ColumnProtection.is_safe
    unfold pgDenylisted at hdeny
    simp only [postgresColumnProtection] at *
    rw [hdeny]
    rfl
  have h2 : postgresColumnProtection.is_safe col2 = true := by
    unfold ColumnProtection.is_safe
    unfold pgDenylisted at hdeny2
    simp only [postgresColumnProtection] at *
    rw [hdeny2]
    rfl
  simp [h1, h2]

/-- Witness for C8: with validation disabled on the default Postgres builder,
the system column `xmin` is rejected and the unmodeled column
`unmodeled_column` is allowed. -/
theorem c8_denylist_blocks_with_validation_disabled_witness :
    (pgDenylisted "xmin" = true ∧ pgDenylisted "unmodeled_column" = false) ∧
      (({ mkPostgresBuilder [("name", FieldType.string)] with
            column_validation_enabled := false } : QueryBuilder).is_column_safe "xmin" =
          false ∧
        ({ mkPostgresBuilder [("name", FieldType.string)] with
            column_validation_enabled := false } : QueryBuilder).is_column_safe
            "unmodeled_column" = true) :=
  ⟨⟨by decide, by decide⟩,
    c8_denylist_blocks_with_validation_disabled _ "xmin" "unmodeled_column"
      rfl rfl rfl rfl (by decide) rfl (by decide)⟩

/-- C9: a search with an absent/blank term or an absent/empty column list
leaves the builder's condition list and argument list unchanged. -/
theorem c9_blank_search_is_noop (qb : QueryBuilder) (p : QueryParams)
    (h : p.search.search = none ∨
      (∃ s, p.search.search = some s ∧ (rustTrim s).data.isEmpty = true) ∨
      p.search.search_columns = none ∨ p.search.search_columns = some []) :
    (qb.with_search p).conditions = qb.conditions ∧
      (qb.with_search p).arguments = qb.arguments := by
  unfold QueryBuilder.with_search
  rcases h with h | ⟨s, hs, ht⟩ | h | h
  · rw [h]
    exact ⟨rfl, rfl⟩
  · rw [hs]
    cases hc : p.search.search_columns with
    | none => exact ⟨rfl, rfl⟩
    | some cols => simp [ht]
  · cases hs : p.search.search with
    | none => exact ⟨rfl, rfl⟩
    | some s =>
      rw [h]
      exact ⟨rfl, rfl⟩
  · cases hs : p.search.search with
    | none => exact ⟨rfl, rfl⟩
    | some s =>
      rw [h]
      simp

/-- Witness for C9: a whitespace-only search term over an existing column
adds no condition and no argument. -/
theorem c9_blank_search_is_noop_witness :
    ((mkSearchParams (some "   ") (some ["name"])).search.search = some "   " ∧
      (rustTrim "   ").data.isEmpty = true) ∧
      (((mkPostgresBuilder [("name", FieldType.string)]).with_search
            (mkSearchParams (some "   ") (some ["name"]))).conditions =
          (mkPostgresBuilder [("name", FieldType.string)]).conditions ∧
        ((mkPostgresBuilder [("name", FieldType.string)]).with_search
            (mkSearchParams (some "   ") (some ["name"]))).arguments =
          (mkPostgresBuilder [("name", FieldType.string)]).arguments) :=
  ⟨⟨rfl, by decide⟩,
    c9_blank_search_is_noop _ _ (Or.inr (Or.inl ⟨"   ", rfl, by decide⟩))⟩

/-- C3, code-path evidence: an `In` filter with an empty array on the safe
column `id` makes `with_filters` emit the condition `"id" IN ()` (with no
placeholders and no argument growth) instead of emitting no condition: the
`In`/`NotIn` arms have no empty-array guard (query_builder.rs lines 443-466),
unlike the `Between` arm. -/
theorem c3_empty_in_array_emits_in_unit :
    ((mkPostgresBuilder [("id", FieldType.int)]).with_filters
          (mkFilterParams [{ field := "id", operator := .inOp, value := .array [] }])).conditions =
        ["\"id\" IN ()"] ∧
      ((mkPostgresBuilder [("id", FieldType.int)]).with_filters
          (mkFilterParams [{ field := "id", operator := .inOp, value := .array [] }])).arguments =
        [] := by
  exact ⟨by decide, by decide⟩

theorem natDigits_lt10 {n : Nat} (h : n < 10) : natDigits n = [digitChar n] := by
  unfold natDigits
  simp [h]

theorem natDigits_ge10 {n : Nat} (h : 10 ≤ n) :
    natDigits n = natDigits (n / 10) ++ [digitChar (n % 10)] := by
  conv_lhs => unfold natDigits
  simp [Nat.not_lt.mpr h]

theorem natDigits_ne_nil (n : Nat) : natDigits n ≠ [] := by
  unfold natDigits
  split
  · simp
  · simp

theorem natDigits_length_pos (n : Nat) : 1 ≤ (natDigits n).length :=
  List.length_pos.mpr (natDigits_ne_nil n)

theorem digitChar_isDigit (d : Nat) (h : d < 10) : (digitChar d).isDigit = true := by
  interval_cases d <;> decide

theorem digitChar_toNat (d : Nat) (h : d < 10) : (digitChar d).toNat = 48 + d := by
  interval_cases d <;> decide

theorem natDigits_all_isDigit (n : Nat) : ∀ c ∈ natDigits n, c.isDigit = true := by
  induction n using Nat.strong_induction_on with
  | _ n ih =>
    by_cases h : n < 10
    · rw [natDigits_lt10 h]
      intro c hc
      simp at hc
      subst hc
      exact digitChar_isDigit n h
    · rw [natDigits_ge10 (by omega)]
      intro c hc
      rw [List.mem_append] at hc
      rcases hc with hc | hc
      · exact ih (n / 10) (Nat.div_lt_self (by omega) (by omega)) c hc
      · simp at hc
        subst hc
        exact digitChar_isDigit (n % 10) (Nat.mod_lt _ (by omega))

theorem natDigits_injective : Function.Injective natDigits := by
  intro m n h
  induction m using Nat.strong_induction_on generalizing n with
  | _ m ih =>
    by_cases hm : m < 10 <;> by_cases hn : n < 10
    · rw [natDigits_lt10 hm, natDigits_lt10 hn] at h
      simp at h
      have h1 := digitChar_toNat m hm
      have h2 := digitChar_toNat n hn
      rw [h, h2] at h1
      omega
    · rw [natDigits_lt10 hm, natDigits_ge10 (by omega)] at h
      have hlen := congrArg List.length h
      have hp := natDigits_length_pos (n / 10)
      simp only [List.length_cons, List.length_append, List.length_nil] at hlen
      omega
    · rw [natDigits_ge10 (by omega), natDigits_lt10 hn] at h
      have hlen := congrArg List.length h
      have hp := natDigits_length_pos (m / 10)
      simp only [List.length_cons, List.length_append, List.length_nil] at hlen
      omega
    · rw [natDigits_ge10 (show 10 ≤ m by omega), natDigits_ge10 (show 10 ≤ n by omega)] at h
      obtain ⟨h1, h2⟩ := List.append_inj' h (by simp)
      simp at h2
      have hd1 := digitChar_toNat (m % 10) (Nat.mod_lt _ (by omega))
      have hd2 := digitChar_toNat (n % 10) (Nat.mod_lt _ (by omega))
      rw [h2, hd2] at hd1
      have hdiv : m / 10 = n / 10 := ih (m / 10) (Nat.div_lt_self (by omega) (by omega)) h1
      omega

theorem natDigitString_injective : Function.Injective natDigitString := by
  intro m n h
  apply natDigits_injective
  have := congrArg String.data h
  simpa [natDigitString] using this

theorem strData_append (a b : String) : (a ++ b).data = a.data ++ b.data := by
  cases a
  cases b
  rfl

theorem pgPlaceholder_data (n : Nat) :
    (pgPlaceholder n).data = '$' :: natDigits n := by
  have : (pgPlaceholder n).data = "$".data ++ (natDigitString n).data :=
    strData_append "$" (natDigitString n)
  rw [this]
  rfl

theorem of_dollarFree {s : String} (h : dollarFree s = true) : '$' ∉ s.data := by
  simp [dollarFree] at h
  simpa using h

theorem dollarFree_append {a b : String} (ha : dollarFree a = true)
    (hb : dollarFree b = true) : dollarFree (a ++ b) = true := by
  simp [dollarFree, strData_append] at *
  exact ⟨ha, hb⟩

theorem scanL_nil : scanL [] = [] := by rw [scanL]

theorem scanL_cons_ne (c : Char) (l : List Char) (h : ¬c = '$') :
    scanL (c :: l) = scanL l := by
  conv_lhs => rw [scanL]
  simp [h]

theorem scanL_append_no_dollar (a b : List Char) (h : '$' ∉ a) :
    scanL (a ++ b) = scanL b := by
  induction a with
  | nil => rfl
  | cons c rest ih =>
    have hc : ¬c = '$' := by
      intro hc
      exact h (hc ▸ List.mem_cons_self c rest)
    rw [List.cons_append, scanL_cons_ne _ _ hc]
    exact ih (fun hm => h (List.mem_cons_of_mem c hm))

theorem scanL_no_dollar (a : List Char) (h : '$' ∉ a) : scanL a = [] := by
  have := scanL_append_no_dollar a [] h
  rw [List.append_nil] at this
  rw [this, scanL_nil]

theorem takeWhile_digits_append (ds b : List Char)
    (hds : ∀ c ∈ ds, c.isDigit = true) (hb : headNDb b = true) :
    (ds ++ b).takeWhile Char.isDigit = ds ∧ (ds ++ b).dropWhile Char.isDigit = b := by
  induction ds with
  | nil =>
    simp only [List.nil_append]
    cases b with
    | nil => simp
    | cons c cs =>
      simp [headNDb] at hb
      simp [List.takeWhile, List.dropWhile, hb]
  | cons d ds ih =>
    have hd : d.isDigit = true := hds d (List.mem_cons_self d ds)
    have ih' := ih (fun c hc => hds c (List.mem_cons_of_mem d hc))
    simp only [List.cons_append, List.takeWhile, List.dropWhile, hd]
    simp [ih'.1, ih'.2]

theorem scanL_dollar_digits (n : Nat) (post : List Char) (hpost : headNDb post = true) :
    scanL ('$' :: (natDigits n ++ post)) = natDigits n :: scanL post := by
  obtain ⟨ht, hd⟩ := takeWhile_digits_append (natDigits n) post (natDigits_all_isDigit n) hpost
  conv_lhs => rw [scanL]
  rw [if_pos rfl]
  cases hx : natDigits n with
  | nil => exact absurd hx (natDigits_ne_nil n)
  | cons d ds =>
    rw [hx] at ht hd
    simp only [ht, hd]

theorem headNDb_append (a b : List Char) (ha : headNDb a = true) (hb : headNDb b = true) :
    headNDb (a ++ b) = true := by
  cases a with
  | nil => simpa using hb
  | cons c cs => simpa [headNDb] using ha

theorem pgTypeCast_dollarFree (ft : FieldType) : dollarFree (pgTypeCast ft) = true := by
  cases ft <;> decide

theorem pgTypeCast_headNDb (ft : FieldType) : headNDb (pgTypeCast ft).data = true := by
  cases ft <;> decide

theorem escapeQuotes_dollarFree {s : String} (h : dollarFree s = true) :
    dollarFree (escapeQuotes s) = true := by
  have key : ∀ l : List Char, '$' ∉ l →
      '$' ∉ l.foldr (fun c acc => if c = '"' then '"' :: '"' :: acc else c :: acc) [] := by
    intro l hl
    induction l with
    | nil => simp
    | cons c cs ih =>
      simp only [List.mem_cons, not_or] at hl
      have ihr := ih hl.2
      by_cases hc : c = '"' <;> simp [hc, List.mem_cons, ihr, hl.1]
  have hmem : '$' ∉ s.data := of_dollarFree h
  have hout := key s.data hmem
  simpa [dollarFree, escapeQuotes] using hout

theorem pgQuoteIdentifier_dollarFree {s : String} (h : dollarFree s = true) :
    dollarFree (pgQuoteIdentifier s) = true := by
  unfold pgQuoteIdentifier
  exact dollarFree_append (dollarFree_append (by decide) (escapeQuotes_dollarFree h)) (by decide)

theorem occ_of_data_single (s : String) (pre post : List Char) (n : Nat)
    (hdata : s.data = pre ++ '$' :: (natDigits n ++ post))
    (hpre : '$' ∉ pre) (hpost : '$' ∉ post) (hh : headNDb post = true) :
    placeholderOccurrences s = [natDigitString n] := by
  unfold placeholderOccurrences
  rw [hdata, scanL_append_no_dollar _ _ hpre, scanL_dollar_digits n post hh,
    scanL_no_dollar post hpost]
  rfl

theorem occ_of_data_two (s : String) (pre mid post : List Char) (n m : Nat)
    (hdata : s.data = pre ++ '$' :: (natDigits n ++ (mid ++ '$' :: (natDigits m ++ post))))
    (hpre : '$' ∉ pre) (hmid : '$' ∉ mid) (hpost : '$' ∉ post)
    (hhm : headNDb mid = true) (hhp : headNDb post = true) (hmne : mid ≠ []) :
    placeholderOccurrences s = [natDigitString n, natDigitString m] := by
  unfold placeholderOccurrences
  have hh1 : headNDb (mid ++ '$' :: (natDigits m ++ post)) = true := by
    cases mid with
    | nil => exact absurd rfl hmne
    | cons c cs => simpa [headNDb] using hhm
  rw [hdata, scanL_append_no_dollar _ _ hpre, scanL_dollar_digits n _ hh1,
    scanL_append_no_dollar _ _ hmid, scanL_dollar_digits m post hhp,
    scanL_no_dollar post hpost]
  rfl

theorem headNDb_join_ph (ns : List Nat) (cast : String) (hne : ns ≠ []) :
    headNDb ((joinSep ", " (ns.map (fun i => pgPlaceholder i ++ cast))).data) = true := by
  cases ns with
  | nil => exact absurd rfl hne
  | cons n rest =>
    cases rest with
    | nil =>
      simp only [List.map_cons, List.map_nil, joinSep]
      rw [strData_append, pgPlaceholder_data]
      rfl
    | cons m ms =>
      simp only [List.map_cons, joinSep]
      rw [strData_append, strData_append, strData_append, pgPlaceholder_data]
      rfl

theorem scanL_join_ph (ns : List Nat) (cast : String)
    (hc : dollarFree cast = true) (hch : headNDb cast.data = true)
    (post : List Char) (hp : '$' ∉ post) (hph : headNDb post = true) :
    scanL ((joinSep ", " (ns.map (fun i => pgPlaceholder i ++ cast))).data ++ post) =
      ns.map natDigits := by
  induction ns with
  | nil =>
    simp only [List.map_nil, joinSep]
    simp only [show ("" : String).data = [] from rfl, List.nil_append]
    exact scanL_no_dollar post hp
  | cons n rest ih =>
    cases rest with
    | nil =>
      simp only [List.map_cons, List.map_nil, joinSep]
      rw [strData_append, pgPlaceholder_data]
      have h1 : headNDb (cast.data ++ post) = true := headNDb_append _ _ hch hph
      simp only [List.cons_append, List.append_assoc]
      rw [scanL_dollar_digits n _ h1,
        scanL_append_no_dollar _ _ (of_dollarFree hc), scanL_no_dollar post hp]
    | cons m ms =>
      simp only [List.map_cons, joinSep] at ih ⊢
      rw [strData_append, strData_append, strData_append, pgPlaceholder_data]
      have hjoin : headNDb ((joinSep ", "
          ((pgPlaceholder m ++ cast) :: ms.map (fun i => pgPlaceholder i ++ cast))).data) =
          true := by
        have := headNDb_join_ph (m :: ms) cast (by simp)
        simpa using this
      have h1 : headNDb (cast.data ++ ',' :: ' ' :: ((joinSep ", "
            ((pgPlaceholder m ++ cast) :: ms.map (fun i => pgPlaceholder i ++ cast))).data ++
              post)) = true := by
        apply headNDb_append _ _ hch
        rfl
      simp only [List.append_assoc, List.cons_append, List.nil_append]
      rw [scanL_dollar_digits n _ h1,
        scanL_append_no_dollar _ _ (of_dollarFree hc),
        scanL_cons_ne ',' _ (by decide), scanL_cons_ne ' ' _ (by decide), ih]

theorem scanL_join_frags (k : Nat) (frags : List String)
    (hf : ∀ f ∈ frags, FragShape f k)
    (post : List Char) (hp : '$' ∉ post) (hph : headNDb post = true) :
    scanL ((joinSep " OR " frags).data ++ post) =
      List.replicate frags.length (natDigits k) := by
  induction frags with
  | nil =>
    simp only [joinSep]
    simp only [show ("" : String).data = [] from rfl, List.nil_append]
    simp [scanL_no_dollar post hp]
  | cons f rest ih =>
    obtain ⟨pre, postF, hdata, hpre, hpostF, hhF⟩ := hf f (List.mem_cons_self f rest)
    cases rest with
    | nil =>
      simp only [joinSep]
      rw [hdata]
      have h1 : headNDb (postF ++ post) = true := headNDb_append _ _ hhF hph
      simp only [List.cons_append, List.append_assoc]
      rw [scanL_append_no_dollar _ _ hpre, scanL_dollar_digits k _ h1,
        scanL_append_no_dollar _ _ hpostF, scanL_no_dollar post hp]
      rfl
    | cons g gs =>
      simp only [joinSep] at ih ⊢
      rw [strData_append, strData_append, hdata]
      have h1 : headNDb (postF ++
          ' ' :: 'O' :: 'R' :: ' ' :: ([] ++ ((joinSep " OR " (g :: gs)).data ++ post))) =
          true := by
        apply headNDb_append _ _ hhF
        rfl
      simp only [List.cons_append, List.append_assoc]
      rw [scanL_append_no_dollar _ _ hpre, scanL_dollar_digits k _ h1,
        scanL_append_no_dollar _ _ hpostF,
        scanL_cons_ne ' ' _ (by decide), scanL_cons_ne 'O' _ (by decide),
        scanL_cons_ne 'R' _ (by decide), scanL_cons_ne ' ' _ (by decide)]
      simp only [List.nil_append]
      rw [ih (fun x hx => hf x (List.mem_cons_of_mem f hx))]
      rfl

theorem in_fold_spec (ph : Nat → String) (cast : String) (values : List String)
    (args acc : List String) :
    values.foldl
      (fun (a : List String × List String) v =>
        (a.1 ++ [v], a.2 ++ [ph (a.1.length + 1) ++ cast])) (args, acc) =
      (args ++ values,
        acc ++ (List.range' (args.length + 1) values.length).map (fun i => ph i ++ cast)) := by
  induction values generalizing args acc with
  | nil => simp
  | cons v vs ih =>
    simp only [List.foldl_cons]
    rw [ih]
    rw [List.length_cons, List.range'_succ (args.length + 1) vs.length 1]
    simp [List.append_assoc, List.length_append]

theorem dedup_replicate_succ (a : String) (k : Nat) :
    (List.replicate (k + 1) a).dedup = [a] := by
  induction k with
  | zero => simp
  | succ k ih =>
    rw [List.replicate_succ, List.dedup_cons_of_mem (by simp)]
    exact ih

theorem dedup_map_range' (s n : Nat) :
    ((List.range' s n).map natDigitString).dedup = (List.range' s n).map natDigitString :=
  List.dedup_eq_self.mpr ((List.nodup_range' s n).map natDigitString_injective)

theorem format_column_dollarFree (qb : QueryBuilder) (col : String)
    (hd : qb.dialect = postgresDialect)
    (hpre : ∀ pre, qb.tablePrefixOpt = some pre → dollarFree pre = true)
    (hcol : dollarFree col = true) :
    dollarFree (qb.format_column col) = true := by
  unfold QueryBuilder.format_column
  rw [hd]
  cases hx : qb.tablePrefixOpt with
  | none => exact pgQuoteIdentifier_dollarFree hcol
  | some pre =>
    exact dollarFree_append
      (dollarFree_append (pgQuoteIdentifier_dollarFree (hpre pre hx)) (by decide))
      (pgQuoteIdentifier_dollarFree hcol)

theorem occ_binop (tc mid cast : String) (n : Nat)
    (htc : dollarFree tc = true) (hmid : dollarFree mid = true)
    (hcast : dollarFree cast = true) (hch : headNDb cast.data = true) :
    placeholderOccurrences (tc ++ mid ++ pgPlaceholder n ++ cast) = [natDigitString n] := by
  apply occ_of_data_single _ (tc.data ++ mid.data) cast.data n
  · simp [strData_append, pgPlaceholder_data, List.append_assoc]
  · intro hmem
    rcases List.mem_append.mp hmem with h | h
    · exact of_dollarFree htc h
    · exact of_dollarFree hmid h
  · exact of_dollarFree hcast
  · exact hch

theorem occ_binop_nocast (tc mid : String) (n : Nat)
    (htc : dollarFree tc = true) (hmid : dollarFree mid = true) :
    placeholderOccurrences (tc ++ mid ++ pgPlaceholder n) = [natDigitString n] := by
  have := occ_binop tc mid "" n htc hmid (by decide) (by decide)
  simpa using this

/-- C4: for a comparison-operator filter (Eq/Ne/Gt/Lt/Gte/Lte) on a safe
non-computed column, `with_filters` appends exactly one condition with exactly
one placeholder occurrence (ordinal = argument count before the call plus 1),
appends exactly one argument (the bindable value), and the condition ends
with the Postgres cast suffix for the column's effective field type (empty
for string/unknown). -/
theorem c4_single_placeholder_ops (qb : QueryBuilder) (f : QueryFilter)
    (hd : qb.dialect = postgresDialect)
    (hfield : dollarFree f.field = true)
    (hpre : ∀ pre, qb.tablePrefixOpt = some pre → dollarFree pre = true)
    (hnc : qb.computed_properties.lookup f.field = none)
    (hsafe : qb.is_column_safe f.field = true)
    (hop : f.operator = .eq ∨ f.operator = .ne ∨ f.operator = .gt ∨ f.operator = .lt ∨
      f.operator = .gte ∨ f.operator = .lte) :
    ∃ c : String,
      (qb.with_filters (mkFilterParams [f])).conditions = qb.conditions ++ [c] ∧
      (qb.with_filters (mkFilterParams [f])).arguments =
        qb.arguments ++ [f.value.to_bindable_string] ∧
      placeholderOccurrences c = [natDigitString (qb.arguments.length + 1)] ∧
      ∃ body : String,
        c = body ++ pgTypeCast (effectiveFieldType
          ((qb.field_meta.lookup f.field).getD FieldType.unknown) f.value) := by
  have hwf : qb.with_filters (mkFilterParams [f]) = applyFilter qb f := by
    simp [QueryBuilder.with_filters, mkFilterParams]
  have hap : applyFilter qb f =
      applyFilterOn qb (qb.format_column f.field)
        ((qb.field_meta.lookup f.field).getD FieldType.unknown) f := by
    unfold applyFilter
    rw [hnc, hsafe]
    simp
  rw [hwf, hap]
  set tc := qb.format_column f.field with htcdef
  set ft := (qb.field_meta.lookup f.field).getD FieldType.unknown with hftdef
  have htc : dollarFree tc = true := format_column_dollarFree qb f.field hd hpre hfield
  have hcast : dollarFree (pgTypeCast (effectiveFieldType ft f.value)) = true :=
    pgTypeCast_dollarFree _
  have hch : headNDb (pgTypeCast (effectiveFieldType ft f.value)).data = true :=
    pgTypeCast_headNDb _
  obtain ⟨fl, op, v⟩ := f
  simp only at hop ⊢
  rcases hop with h | h | h | h | h | h
  · subst h
    refine ⟨tc ++ " = " ++ pgPlaceholder (qb.arguments.length + 1) ++
        pgTypeCast (effectiveFieldType ft v), ?_, ?_, ?_, ⟨_, rfl⟩⟩
    · simp [applyFilterOn, hd, postgresDialect]
    · simp [applyFilterOn, hd, postgresDialect]
    · exact occ_binop _ _ _ _ htc (by decide) hcast hch
  · subst h
    refine ⟨tc ++ " != " ++ pgPlaceholder (qb.arguments.length + 1) ++
        pgTypeCast (effectiveFieldType ft v), ?_, ?_, ?_, ⟨_, rfl⟩⟩
    · simp [applyFilterOn, hd, postgresDialect]
    · simp [applyFilterOn, hd, postgresDialect]
    · exact occ_binop _ _ _ _ htc (by decide) hcast hch
  · subst h
    refine ⟨tc ++ " > " ++ pgPlaceholder (qb.arguments.length + 1) ++
        pgTypeCast (effectiveFieldType ft v), ?_, ?_, ?_, ⟨_, rfl⟩⟩
    · simp [applyFilterOn, hd, postgresDialect]
    · simp [applyFilterOn, hd, postgresDialect]
    · exact occ_binop _ _ _ _ htc (by decide) hcast hch
  · subst h
    refine ⟨tc ++ " < " ++ pgPlaceholder (qb.arguments.length + 1) ++
        pgTypeCast (effectiveFieldType ft v), ?_, ?_, ?_, ⟨_, rfl⟩⟩
    · simp [applyFilterOn, hd, postgresDialect]
    · simp [applyFilterOn, hd, postgresDialect]
    · exact occ_binop _ _ _ _ htc (by decide) hcast hch
  · subst h
    refine ⟨tc ++ " >= " ++ pgPlaceholder (qb.arguments.length + 1) ++
        pgTypeCast (effectiveFieldType ft v), ?_, ?_, ?_, ⟨_, rfl⟩⟩
    · simp [applyFilterOn, hd, postgresDialect]
    · simp [applyFilterOn, hd, postgresDialect]
    · exact occ_binop _ _ _ _ htc (by decide) hcast hch
  · subst h
    refine ⟨tc ++ " <= " ++ pgPlaceholder (qb.arguments.length + 1) ++
        pgTypeCast (effectiveFieldType ft v), ?_, ?_, ?_, ⟨_, rfl⟩⟩
    · simp [applyFilterOn, hd, postgresDialect]
    · simp [applyFilterOn, hd, postgresDialect]
    · exact occ_binop _ _ _ _ htc (by decide) hcast hch

theorem occ_between (tc cast : String) (n : Nat)
    (htc : dollarFree tc = true) (hcast : dollarFree cast = true)
    (hch : headNDb cast.data = true) :
    placeholderOccurrences (tc ++ " BETWEEN " ++ pgPlaceholder n ++ cast ++ " AND " ++
        pgPlaceholder (n + 1) ++ cast) =
      [natDigitString n, natDigitString (n + 1)] := by
  apply occ_of_data_two _ (tc.data ++ " BETWEEN ".data) (cast.data ++ " AND ".data)
    cast.data n (n + 1)
  · simp [strData_append, pgPlaceholder_data, List.append_assoc]
  · intro hmem
    rcases List.mem_append.mp hmem with h | h
    · exact of_dollarFree htc h
    · exact of_dollarFree (by decide : dollarFree " BETWEEN " = true) h
  · intro hmem
    rcases List.mem_append.mp hmem with h | h
    · exact of_dollarFree hcast h
    · exact of_dollarFree (by decide : dollarFree " AND " = true) h
  · exact of_dollarFree hcast
  · exact headNDb_append _ _ hch (by decide)
  · exact hch
  · intro hcontr
    have := congrArg List.length hcontr
    simp at this

/-- C6: a Between filter on a safe non-computed column with a two-element
array emits one condition of the shape `col BETWEEN $n<cast> AND $(n+1)<cast>`
(two placeholder occurrences, each with the effective-type cast) and grows
the argument list by exactly two; with fewer than two array elements the
filter is silently skipped, leaving conditions and arguments unchanged. -/
theorem c6_between_filter (qb : QueryBuilder) (f : QueryFilter)
    (hd : qb.dialect = postgresDialect)
    (hfield : dollarFree f.field = true)
    (hpre : ∀ pre, qb.tablePrefixOpt = some pre → dollarFree pre = true)
    (hnc : qb.computed_properties.lookup f.field = none)
    (hsafe : qb.is_column_safe f.field = true)
    (hop : f.operator = .between) :
    (∀ a b : FilterValue, f.value = .array [a, b] →
      (qb.with_filters (mkFilterParams [f])).conditions = qb.conditions ++
          [qb.format_column f.field ++ " BETWEEN " ++
            pgPlaceholder (qb.arguments.length + 1) ++
            pgTypeCast (effectiveFieldType
              ((qb.field_meta.lookup f.field).getD FieldType.unknown) f.value) ++
            " AND " ++ pgPlaceholder (qb.arguments.length + 2) ++
            pgTypeCast (effectiveFieldType
              ((qb.field_meta.lookup f.field).getD FieldType.unknown) f.value)] ∧
        (qb.with_filters (mkFilterParams [f])).arguments =
          qb.arguments ++ [a.to_bindable_string, b.to_bindable_string] ∧
        placeholderOccurrences (qb.format_column f.field ++ " BETWEEN " ++
            pgPlaceholder (qb.arguments.length + 1) ++
            pgTypeCast (effectiveFieldType
              ((qb.field_meta.lookup f.field).getD FieldType.unknown) f.value) ++
            " AND " ++ pgPlaceholder (qb.arguments.length + 2) ++
            pgTypeCast (effectiveFieldType
              ((qb.field_meta.lookup f.field).getD FieldType.unknown) f.value)) =
          [natDigitString (qb.arguments.length + 1),
            natDigitString (qb.arguments.length + 2)]) ∧
    (∀ arr : List FilterValue, f.value = .array arr → arr.length < 2 →
      (qb.with_filters (mkFilterParams [f])).conditions = qb.conditions ∧
        (qb.with_filters (mkFilterParams [f])).arguments = qb.arguments) := by
  have hwf : qb.with_filters (mkFilterParams [f]) = applyFilter qb f := by
    simp [QueryBuilder.with_filters, mkFilterParams]
  have hap : applyFilter qb f =
      applyFilterOn qb (qb.format_column f.field)
        ((qb.field_meta.lookup f.field).getD FieldType.unknown) f := by
    unfold applyFilter
    rw [hnc, hsafe]
    simp
  have htc : dollarFree (qb.format_column f.field) = true :=
    format_column_dollarFree qb f.field hd hpre hfield
  obtain ⟨fl, op, v⟩ := f
  simp only at hop
  subst hop
  constructor
  · rintro a b rfl
    simp only at hwf hap htc ⊢
    rw [hwf, hap]
    have hcast := pgTypeCast_dollarFree (effectiveFieldType
      ((qb.field_meta.lookup fl).getD FieldType.unknown) (FilterValue.array [a, b]))
    have hch := pgTypeCast_headNDb (effectiveFieldType
      ((qb.field_meta.lookup fl).getD FieldType.unknown) (FilterValue.array [a, b]))
    refine ⟨?_, ?_, ?_⟩
    · simp [applyFilterOn, hd, postgresDialect, FilterValue.to_bindable_strings]
    · simp [applyFilterOn, hd, postgresDialect, FilterValue.to_bindable_strings]
    · have := occ_between (qb.format_column fl)
        (pgTypeCast (effectiveFieldType
          ((qb.field_meta.lookup fl).getD FieldType.unknown) (FilterValue.array [a, b])))
        (qb.arguments.length + 1) htc hcast hch
      simpa using this
  · rintro arr rfl hlen
    simp only at hwf hap ⊢
    rw [hwf, hap]
    have hvlen : (FilterValue.to_bindable_strings (FilterValue.array arr)).length < 2 := by
      simpa [FilterValue.to_bindable_strings] using hlen
    constructor
    · simp [applyFilterOn, if_neg (by omega : ¬(FilterValue.to_bindable_strings
        (FilterValue.array arr)).length ≥ 2)]
    · simp [applyFilterOn, if_neg (by omega : ¬(FilterValue.to_bindable_strings
        (FilterValue.array arr)).length ≥ 2)]

theorem activate_joins_fields (qb : QueryBuilder) (p : ComputedProperty) :
    (qb.activate_joins p).conditions = qb.conditions ∧
      (qb.activate_joins p).arguments = qb.arguments ∧
      (qb.activate_joins p).mappers = qb.mappers ∧
      (qb.activate_joins p).dialect = qb.dialect ∧
      (qb.activate_joins p).tablePrefixOpt = qb.tablePrefixOpt ∧
      (qb.activate_joins p).computed_properties = qb.computed_properties :=
  ⟨rfl, rfl, rfl, rfl, rfl, rfl⟩

theorem foldl_activate_joins_fields (props : List ComputedProperty) (qb : QueryBuilder) :
    (props.foldl QueryBuilder.activate_joins qb).conditions = qb.conditions ∧
      (props.foldl QueryBuilder.activate_joins qb).arguments = qb.arguments := by
  induction props generalizing qb with
  | nil => exact ⟨rfl, rfl⟩
  | cons p ps ih =>
    simp only [List.foldl_cons]
    exact ih (qb.activate_joins p)

theorem searchFragment_isSome (qb : QueryBuilder) (n : Nat) (s c : String)
    (hmap : qb.mappers = [])
    (hc : qb.is_column_safe c = true ∨ (qb.computed_properties.lookup c).isSome = true) :
    (searchFragment qb n s c).isSome = true := by
  unfold searchFragment
  split
  · dsimp only
    split <;> rfl
  · rename_i hcp
    rw [hmap]
    rcases hc with hc | hc
    · rw [if_neg (by simp [hc])]
      dsimp only
      split <;> rfl
    · rw [hcp] at hc
      simp at hc

theorem lookup_mem {β : Type} (l : List (String × β)) (k : String) (v : β)
    (h : l.lookup k = some v) : (k, v) ∈ l := by
  induction l with
  | nil => simp [List.lookup] at h
  | cons p ps ih =>
    rw [List.lookup_cons] at h
    split at h
    · rename_i heq
      simp at heq h
      subst h
      rw [heq]
      simp
    · exact List.mem_cons_of_mem p (ih h)

theorem searchFragment_fragShape (qb : QueryBuilder) (n : Nat) (s c : String)
    (x : String × Option ComputedProperty)
    (hd : qb.dialect = postgresDialect)
    (hmap : qb.mappers = [])
    (hpre : ∀ pre, qb.tablePrefixOpt = some pre → dollarFree pre = true)
    (hexpr : ∀ e ∈ qb.computed_properties, dollarFree e.2.expression = true)
    (hcol : dollarFree c = true)
    (hx : searchFragment qb n s c = some x) :
    FragShape x.1 n := by
  unfold searchFragment at hx
  split at hx
  · rename_i prop hcp
    rw [hd] at hx
    have hpropexpr : dollarFree prop.expression = true :=
      hexpr (c, prop) (lookup_mem _ _ _ hcp)
    split at hx
    · rw [← Option.some_inj.mp hx]
      refine ⟨("LOWER(" ++ prop.expression ++ ") LIKE LOWER(").data, [')'], ?_,
        of_dollarFree (dollarFree_append (dollarFree_append (by decide) hpropexpr) (by decide)),
        by decide, by decide⟩
      simp [strData_append, pgPlaceholder_data, postgresDialect, List.append_assoc]
    · rw [← Option.some_inj.mp hx]
      refine ⟨("(" ++ prop.expression ++ ")::text LIKE ").data, [], ?_,
        of_dollarFree (dollarFree_append (dollarFree_append (by decide) hpropexpr) (by decide)),
        by decide, by decide⟩
      simp [strData_append, pgPlaceholder_data, postgresDialect, List.append_assoc]
  · rename_i hcp
    rw [hmap, hd] at hx
    have htc : dollarFree (qb.format_column c) = true :=
      format_column_dollarFree qb c hd hpre hcol
    by_cases hsafe : qb.is_column_safe c
    · simp only [List.lookup_nil, hsafe] at hx
      simp at hx
      split at hx
      · rw [← Option.some_inj.mp hx]
        refine ⟨("LOWER(" ++ qb.format_column c ++ ") LIKE LOWER(").data, [')'], ?_,
          of_dollarFree (dollarFree_append (dollarFree_append (by decide) htc) (by decide)),
          by decide, by decide⟩
        simp [strData_append, pgPlaceholder_data, postgresDialect, List.append_assoc]
      · rw [← Option.some_inj.mp hx]
        refine ⟨(qb.format_column c ++ "::text LIKE ").data, [], ?_,
          of_dollarFree (dollarFree_append htc (by decide)),
          by decide, by decide⟩
        simp [strData_append, pgPlaceholder_data, postgresDialect, List.append_assoc]
    · simp [hsafe] at hx

/-- C10: a search with a non-blank term and at least one safe or computed
search column appends exactly one condition and exactly one argument (the
pattern `%term%`), and every per-column fragment of the condition references
the same placeholder ordinal, the argument count before the call plus 1. -/
theorem c10_search_shared_placeholder (qb : QueryBuilder) (s : String) (cols : List String)
    (hd : qb.dialect = postgresDialect)
    (hmap : qb.mappers = [])
    (hpre : ∀ pre, qb.tablePrefixOpt = some pre → dollarFree pre = true)
    (hexpr : ∀ e ∈ qb.computed_properties, dollarFree e.2.expression = true)
    (hcols : ∀ c ∈ cols, dollarFree c = true)
    (hne : (rustTrim s).data.isEmpty = false)
    (hcne : cols.isEmpty = false)
    (hsome : ∃ c ∈ cols, qb.is_column_safe c = true ∨
      (qb.computed_properties.lookup c).isSome = true) :
    ∃ c : String,
      (qb.with_search (mkSearchParams (some s) (some cols))).conditions =
          qb.conditions ++ [c] ∧
        (qb.with_search (mkSearchParams (some s) (some cols))).arguments =
          qb.arguments ++ ["%" ++ s ++ "%"] ∧
        placeholderMentions c = [natDigitString (qb.arguments.length + 1)] := by
  obtain ⟨c0, hc0mem, hc0⟩ := hsome
  have hfrag0 : (searchFragment qb (qb.arguments.length + 1) s c0).isSome = true :=
    searchFragment_isSome qb (qb.arguments.length + 1) s c0 hmap hc0
  obtain ⟨x0, hx0⟩ := Option.isSome_iff_exists.mp hfrag0
  have hx0mem : x0 ∈ cols.filterMap (searchFragment qb (qb.arguments.length + 1) s) :=
    List.mem_filterMap.mpr ⟨c0, hc0mem, hx0⟩
  have hscne :
      ((cols.filterMap (searchFragment qb (qb.arguments.length + 1) s)).map
        Prod.fst).isEmpty = false := by
    rw [List.isEmpty_eq_false]
    simp only [ne_eq, List.map_eq_nil_iff]
    exact List.ne_nil_of_mem hx0mem
  have hallfrag : ∀ f ∈ (cols.filterMap
      (searchFragment qb (qb.arguments.length + 1) s)).map Prod.fst,
      FragShape f (qb.arguments.length + 1) := by
    intro f hf
    obtain ⟨x, hxmem, hxf⟩ := List.mem_map.mp hf
    obtain ⟨c, hcmem, hcx⟩ := List.mem_filterMap.mp hxmem
    rw [← hxf]
    exact searchFragment_fragShape qb _ s c x hd hmap hpre hexpr (hcols c hcmem) hcx
  refine ⟨"(" ++ joinSep " OR "
      ((cols.filterMap (searchFragment qb (qb.arguments.length + 1) s)).map Prod.fst) ++
      ")", ?_, ?_, ?_⟩
  · unfold QueryBuilder.with_search
    simp only [mkSearchParams]
    rw [if_pos (by simp [hcne, hne])]
    rw [if_pos (by simp [hscne])]
    simp only [(foldl_activate_joins_fields _ _).1]
  · unfold QueryBuilder.with_search
    simp only [mkSearchParams]
    rw [if_pos (by simp [hcne, hne])]
    rw [if_pos (by simp [hscne])]
    simp only [(foldl_activate_joins_fields _ _).2]
  · set frags := (cols.filterMap (searchFragment qb (qb.arguments.length + 1) s)).map
      Prod.fst with hfragsdef
    have hocc : placeholderOccurrences ("(" ++ joinSep " OR " frags ++ ")") =
        List.replicate frags.length (natDigitString (qb.arguments.length + 1)) := by
      unfold placeholderOccurrences
      rw [strData_append, strData_append]
      rw [show ("(" : String).data = ['('] from rfl, show (")" : String).data = [')'] from rfl]
      rw [List.append_assoc, show (['('] : List Char) ++ ((joinSep " OR " frags).data ++ [')']) =
        '(' :: ((joinSep " OR " frags).data ++ [')']) from rfl]
      rw [scanL_cons_ne '(' _ (by decide)]
      rw [scanL_join_frags (qb.arguments.length + 1) frags hallfrag [')'] (by decide) (by decide)]
      rw [List.map_replicate]
      rfl
    unfold placeholderMentions
    rw [hocc]
    have : frags ≠ [] := by
      rw [← List.isEmpty_eq_false]
      exact hscne
    cases hf : frags with
    | nil => exact absurd hf this
    | cons f fs =>
      exact dedup_replicate_succ (natDigitString (qb.arguments.length + 1)) fs.length

/-- Witness for C4: an Eq filter on the int column `id` of the default
Postgres builder. -/
theorem c4_single_placeholder_ops_witness :
    ∃ c : String,
      ((mkPostgresBuilder [("id", FieldType.int)]).with_filters
          (mkFilterParams [⟨"id", .eq, .int 123⟩])).conditions =
        (mkPostgresBuilder [("id", FieldType.int)]).conditions ++ [c] ∧
      ((mkPostgresBuilder [("id", FieldType.int)]).with_filters
          (mkFilterParams [⟨"id", .eq, .int 123⟩])).arguments =
        (mkPostgresBuilder [("id", FieldType.int)]).arguments ++
          [(FilterValue.int 123).to_bindable_string] ∧
      placeholderOccurrences c =
        [natDigitString
          ((mkPostgresBuilder [("id", FieldType.int)]).arguments.length + 1)] ∧
      ∃ body : String,
        c = body ++ pgTypeCast (effectiveFieldType
          (((mkPostgresBuilder [("id", FieldType.int)]).field_meta.lookup
            "id").getD FieldType.unknown) (FilterValue.int 123)) :=
  c4_single_placeholder_ops (mkPostgresBuilder [("id", FieldType.int)])
    { field := "id", operator := .eq, value := .int 123 }
    rfl (by decide) (by intro pre h; simp [mkPostgresBuilder] at h)
    rfl (by decide) (Or.inl rfl)

/-- Witness for C6: a Between filter with two int bounds on the `id` column. -/
theorem c6_between_filter_witness :
    (∀ a b : FilterValue,
      (FilterValue.array [.int 10, .int 99] : FilterValue) = .array [a, b] →
      ((mkPostgresBuilder [("id", FieldType.int)]).with_filters
          (mkFilterParams [⟨"id", .between, .array [.int 10, .int 99]⟩])).conditions =
        (mkPostgresBuilder [("id", FieldType.int)]).conditions ++
          [(mkPostgresBuilder [("id", FieldType.int)]).format_column "id" ++
            " BETWEEN " ++
            pgPlaceholder
              ((mkPostgresBuilder [("id", FieldType.int)]).arguments.length + 1) ++
            pgTypeCast (effectiveFieldType
              (((mkPostgresBuilder [("id", FieldType.int)]).field_meta.lookup
                "id").getD FieldType.unknown)
              (FilterValue.array [.int 10, .int 99])) ++
            " AND " ++
            pgPlaceholder
              ((mkPostgresBuilder [("id", FieldType.int)]).arguments.length + 2) ++
            pgTypeCast (effectiveFieldType
              (((mkPostgresBuilder [("id", FieldType.int)]).field_meta.lookup
                "id").getD FieldType.unknown)
              (FilterValue.array [.int 10, .int 99]))] ∧
        ((mkPostgresBuilder [("id", FieldType.int)]).with_filters
            (mkFilterParams [⟨"id", .between, .array [.int 10, .int 99]⟩])).arguments =
          (mkPostgresBuilder [("id", FieldType.int)]).arguments ++
            [a.to_bindable_string, b.to_bindable_string] ∧
        placeholderOccurrences
            ((mkPostgresBuilder [("id", FieldType.int)]).format_column "id" ++
              " BETWEEN " ++
              pgPlaceholder
                ((mkPostgresBuilder [("id", FieldType.int)]).arguments.length + 1) ++
              pgTypeCast (effectiveFieldType
                (((mkPostgresBuilder [("id", FieldType.int)]).field_meta.lookup
                  "id").getD FieldType.unknown)
                (FilterValue.array [.int 10, .int 99])) ++
              " AND " ++
              pgPlaceholder
                ((mkPostgresBuilder [("id", FieldType.int)]).arguments.length + 2) ++
              pgTypeCast (effectiveFieldType
                (((mkPostgresBuilder [("id", FieldType.int)]).field_meta.lookup
                  "id").getD FieldType.unknown)
                (FilterValue.array [.int 10, .int 99]))) =
          [natDigitString
            ((mkPostgresBuilder [("id", FieldType.int)]).arguments.length + 1),
            natDigitString
              ((mkPostgresBuilder [("id", FieldType.int)]).arguments.length + 2)]) ∧
    (∀ arr : List FilterValue,
      (FilterValue.array [.int 10, .int 99] : FilterValue) = .array arr →
      arr.length < 2 →
      ((mkPostgresBuilder [("id", FieldType.int)]).with_filters
          (mkFilterParams [⟨"id", .between, .array [.int 10, .int 99]⟩])).conditions =
        (mkPostgresBuilder [("id", FieldType.int)]).conditions ∧
        ((mkPostgresBuilder [("id", FieldType.int)]).with_filters
            (mkFilterParams [⟨"id", .between, .array [.int 10, .int 99]⟩])).arguments =
          (mkPostgresBuilder [("id", FieldType.int)]).arguments) :=
  c6_between_filter (mkPostgresBuilder [("id", FieldType.int)])
    { field := "id", operator := .between, value := .array [.int 10, .int 99] }
    rfl (by decide) (by intro pre h; simp [mkPostgresBuilder] at h)
    rfl (by decide) rfl

/-- Witness for C10: searching `john` in the string column `name`. -/
theorem c10_search_shared_placeholder_witness :
    ∃ c : String,
      ((mkPostgresBuilder [("name", FieldType.string)]).with_search
          (mkSearchParams (some "john") (some ["name"]))).conditions =
        (mkPostgresBuilder [("name", FieldType.string)]).conditions ++ [c] ∧
      ((mkPostgresBuilder [("name", FieldType.string)]).with_search
          (mkSearchParams (some "john") (some ["name"]))).arguments =
        (mkPostgresBuilder [("name", FieldType.string)]).arguments ++
          ["%" ++ "john" ++ "%"] ∧
      placeholderMentions c =
        [natDigitString
          ((mkPostgresBuilder [("name", FieldType.string)]).arguments.length + 1)] :=
  c10_search_shared_placeholder (mkPostgresBuilder [("name", FieldType.string)])
    "john" ["name"] rfl rfl
    (by intro pre h; simp [mkPostgresBuilder] at h)
    (by intro e he; simp [mkPostgresBuilder] at he)
    (by intro c hc; simp at hc; subst hc; decide)
    (by decide) (by decide)
    ⟨"name", by decide, Or.inl (by decide)⟩

theorem dedup_single (x : String) : [x].dedup = [x] := by simp

theorem dedup_pair {x y : String} (h : x ≠ y) : [x, y].dedup = [x, y] := by
  rw [List.dedup_cons_of_not_mem (by simp [h]), dedup_single]

theorem mentions_binop (tc mid cast : String) (n : Nat)
    (htc : dollarFree tc = true) (hmid : dollarFree mid = true)
    (hcast : dollarFree cast = true) (hch : headNDb cast.data = true) :
    placeholderMentions (tc ++ mid ++ pgPlaceholder n ++ cast) = [natDigitString n] := by
  unfold placeholderMentions
  rw [occ_binop tc mid cast n htc hmid hcast hch, dedup_single]

theorem mentions_binop_nocast (tc mid : String) (n : Nat)
    (htc : dollarFree tc = true) (hmid : dollarFree mid = true) :
    placeholderMentions (tc ++ mid ++ pgPlaceholder n) = [natDigitString n] := by
  unfold placeholderMentions
  rw [occ_binop_nocast tc mid n htc hmid, dedup_single]

theorem mentions_between (tc cast : String) (n : Nat)
    (htc : dollarFree tc = true) (hcast : dollarFree cast = true)
    (hch : headNDb cast.data = true) :
    placeholderMentions (tc ++ " BETWEEN " ++ pgPlaceholder n ++ cast ++ " AND " ++
        pgPlaceholder (n + 1) ++ cast) =
      [natDigitString n, natDigitString (n + 1)] := by
  unfold placeholderMentions
  rw [occ_between tc cast n htc hcast hch]
  exact dedup_pair (natDigitString_injective.ne (by omega))

theorem mentions_no_placeholder (c : String) (h : dollarFree c = true) :
    placeholderMentions c = [] := by
  unfold placeholderMentions placeholderOccurrences
  rw [scanL_no_dollar c.data (of_dollarFree h)]
  rfl

theorem occ_in_cond (tc mid cast : String) (ns : List Nat)
    (htc : dollarFree tc = true) (hmid : dollarFree mid = true)
    (hcast : dollarFree cast = true) (hch : headNDb cast.data = true) :
    placeholderOccurrences (tc ++ mid ++
        joinSep ", " (ns.map (fun i => pgPlaceholder i ++ cast)) ++ ")") =
      ns.map natDigitString := by
  unfold placeholderOccurrences
  rw [strData_append, strData_append, strData_append,
    show (")" : String).data = [')'] from rfl]
  rw [List.append_assoc, List.append_assoc]
  rw [scanL_append_no_dollar _ _ (of_dollarFree htc),
    scanL_append_no_dollar _ _ (of_dollarFree hmid)]
  rw [scanL_join_ph ns cast hcast hch [')'] (by decide) (by decide)]
  rw [List.map_map]
  rfl

theorem mentions_in_cond (tc mid cast : String) (s m : Nat)
    (htc : dollarFree tc = true) (hmid : dollarFree mid = true)
    (hcast : dollarFree cast = true) (hch : headNDb cast.data = true) :
    placeholderMentions (tc ++ mid ++
        joinSep ", " ((List.range' s m).map (fun i => pgPlaceholder i ++ cast)) ++ ")") =
      (List.range' s m).map natDigitString := by
  unfold placeholderMentions
  rw [occ_in_cond tc mid cast (List.range' s m) htc hmid hcast hch]
  exact dedup_map_range' s m

theorem aligned_one (c : String) (L m : Nat)
    (h : placeholderMentions c = (List.range' (L + 1) m).map natDigitString) :
    PlaceholderAligned [c] L (L + m) :=
  PlaceholderAligned.cons c [] L m (L + m) h (PlaceholderAligned.nil (L + m))

theorem PlaceholderAligned.append_seg {cs ds : List String} {n l k : Nat}
    (h1 : PlaceholderAligned cs n l) (h2 : PlaceholderAligned ds l k) :
    PlaceholderAligned (cs ++ ds) n k := by
  induction h1 with
  | nil => simpa using h2
  | cons c cs n m k2 hc hrest ih =>
    exact PlaceholderAligned.cons c _ n m _ hc (ih h2)

theorem applyFilterOn_seg (qb : QueryBuilder) (tc : String) (ft : FieldType)
    (f : QueryFilter) (hd : qb.dialect = postgresDialect) (htc : dollarFree tc = true) :
    ∃ (newConds newArgs : List String),
      (applyFilterOn qb tc ft f).conditions = qb.conditions ++ newConds ∧
        (applyFilterOn qb tc ft f).arguments = qb.arguments ++ newArgs ∧
        PlaceholderAligned newConds qb.arguments.length
          (qb.arguments.length + newArgs.length) := by
  obtain ⟨fl, op, v⟩ := f
  have hcast : dollarFree (pgTypeCast (effectiveFieldType ft v)) = true :=
    pgTypeCast_dollarFree _
  have hch : headNDb (pgTypeCast (effectiveFieldType ft v)).data = true :=
    pgTypeCast_headNDb _
  cases op with
  | eq =>
    refine ⟨[tc ++ " = " ++ pgPlaceholder (qb.arguments.length + 1) ++
        pgTypeCast (effectiveFieldType ft v)], [v.to_bindable_string],
      by simp [applyFilterOn, hd, postgresDialect],
      by simp [applyFilterOn, hd, postgresDialect], ?_⟩
    exact aligned_one _ _ 1 (by
      rw [mentions_binop tc " = " _ _ htc (by decide) hcast hch]
      rfl)
  | ne =>
    refine ⟨[tc ++ " != " ++ pgPlaceholder (qb.arguments.length + 1) ++
        pgTypeCast (effectiveFieldType ft v)], [v.to_bindable_string],
      by simp [applyFilterOn, hd, postgresDialect],
      by simp [applyFilterOn, hd, postgresDialect], ?_⟩
    exact aligned_one _ _ 1 (by
      rw [mentions_binop tc " != " _ _ htc (by decide) hcast hch]
      rfl)
  | gt =>
    refine ⟨[tc ++ " > " ++ pgPlaceholder (qb.arguments.length + 1) ++
        pgTypeCast (effectiveFieldType ft v)], [v.to_bindable_string],
      by simp [applyFilterOn, hd, postgresDialect],
      by simp [applyFilterOn, hd, postgresDialect], ?_⟩
    exact aligned_one _ _ 1 (by
      rw [mentions_binop tc " > " _ _ htc (by decide) hcast hch]
      rfl)
  | lt =>
    refine ⟨[tc ++ " < " ++ pgPlaceholder (qb.arguments.length + 1) ++
        pgTypeCast (effectiveFieldType ft v)], [v.to_bindable_string],
      by simp [applyFilterOn, hd, postgresDialect],
      by simp [applyFilterOn, hd, postgresDialect], ?_⟩
    exact aligned_one _ _ 1 (by
      rw [mentions_binop tc " < " _ _ htc (by decide) hcast hch]
      rfl)
  | gte =>
    refine ⟨[tc ++ " >= " ++ pgPlaceholder (qb.arguments.length + 1) ++
        pgTypeCast (effectiveFieldType ft v)], [v.to_bindable_string],
      by simp [applyFilterOn, hd, postgresDialect],
      by simp [applyFilterOn, hd, postgresDialect], ?_⟩
    exact aligned_one _ _ 1 (by
      rw [mentions_binop tc " >= " _ _ htc (by decide) hcast hch]
      rfl)
  | lte =>
    refine ⟨[tc ++ " <= " ++ pgPlaceholder (qb.arguments.length + 1) ++
        pgTypeCast (effectiveFieldType ft v)], [v.to_bindable_string],
      by simp [applyFilterOn, hd, postgresDialect],
      by simp [applyFilterOn, hd, postgresDialect], ?_⟩
    exact aligned_one _ _ 1 (by
      rw [mentions_binop tc " <= " _ _ htc (by decide) hcast hch]
      rfl)
  | containsOp =>
    refine ⟨[tc ++ " @> " ++ pgPlaceholder (qb.arguments.length + 1) ++
        pgTypeCast (effectiveFieldType ft v)], [v.to_bindable_string],
      by simp [applyFilterOn, hd, postgresDialect],
      by simp [applyFilterOn, hd, postgresDialect], ?_⟩
    exact aligned_one _ _ 1 (by
      rw [mentions_binop tc " @> " _ _ htc (by decide) hcast hch]
      rfl)
  | like =>
    by_cases hc : effectiveFieldType ft v ≠ FieldType.string ∧
        effectiveFieldType ft v ≠ FieldType.unknown
    · refine ⟨[tc ++ "::text LIKE " ++ pgPlaceholder (qb.arguments.length + 1)],
        [v.to_bindable_string],
        by simp [applyFilterOn, hd, postgresDialect, if_pos hc],
        by simp [applyFilterOn, hd, postgresDialect], ?_⟩
      exact aligned_one _ _ 1 (by
        rw [mentions_binop_nocast tc "::text LIKE " _ htc (by decide)]
        rfl)
    · refine ⟨[tc ++ " LIKE " ++ pgPlaceholder (qb.arguments.length + 1)],
        [v.to_bindable_string],
        by simp [applyFilterOn, hd, postgresDialect, if_neg hc],
        by simp [applyFilterOn, hd, postgresDialect], ?_⟩
      exact aligned_one _ _ 1 (by
        rw [mentions_binop_nocast tc " LIKE " _ htc (by decide)]
        rfl)
  | ilike =>
    by_cases hc : effectiveFieldType ft v ≠ FieldType.string ∧
        effectiveFieldType ft v ≠ FieldType.unknown
    · refine ⟨[tc ++ "::text ILIKE " ++ pgPlaceholder (qb.arguments.length + 1)],
        [v.to_bindable_string],
        by simp [applyFilterOn, hd, postgresDialect, if_pos hc],
        by simp [applyFilterOn, hd, postgresDialect], ?_⟩
      exact aligned_one _ _ 1 (by
        rw [mentions_binop_nocast tc "::text ILIKE " _ htc (by decide)]
        rfl)
    · refine ⟨[tc ++ " ILIKE " ++ pgPlaceholder (qb.arguments.length + 1)],
        [v.to_bindable_string],
        by simp [applyFilterOn, hd, postgresDialect, if_neg hc],
        by simp [applyFilterOn, hd, postgresDialect], ?_⟩
      exact aligned_one _ _ 1 (by
        rw [mentions_binop_nocast tc " ILIKE " _ htc (by decide)]
        rfl)
  | isNull =>
    refine ⟨[tc ++ " IS NULL"], [], by simp [applyFilterOn],
      by simp [applyFilterOn], ?_⟩
    have := aligned_one (tc ++ " IS NULL") qb.arguments.length 0 (by
      rw [mentions_no_placeholder _ (dollarFree_append htc (by decide))]
      rfl)
    simpa using this
  | isNotNull =>
    refine ⟨[tc ++ " IS NOT NULL"], [], by simp [applyFilterOn],
      by simp [applyFilterOn], ?_⟩
    have := aligned_one (tc ++ " IS NOT NULL") qb.arguments.length 0 (by
      rw [mentions_no_placeholder _ (dollarFree_append htc (by decide))]
      rfl)
    simpa using this
  | inOp =>
    have hfold := in_fold_spec pgPlaceholder (pgTypeCast (effectiveFieldType ft v))
      (FilterValue.to_bindable_strings v) qb.arguments []
    refine ⟨[tc ++ " IN (" ++ joinSep ", "
        ((List.range' (qb.arguments.length + 1)
          (FilterValue.to_bindable_strings v).length).map
          (fun i => pgPlaceholder i ++ pgTypeCast (effectiveFieldType ft v))) ++ ")"],
      FilterValue.to_bindable_strings v, ?_, ?_, ?_⟩
    · simp only [applyFilterOn, hd, postgresDialect]
      rw [hfold]
      simp
    · simp only [applyFilterOn, hd, postgresDialect]
      rw [hfold]
    · exact aligned_one _ _ (FilterValue.to_bindable_strings v).length
        (mentions_in_cond tc " IN (" _ (qb.arguments.length + 1)
          (FilterValue.to_bindable_strings v).length htc (by decide) hcast hch)
  | notInOp =>
    have hfold := in_fold_spec pgPlaceholder (pgTypeCast (effectiveFieldType ft v))
      (FilterValue.to_bindable_strings v) qb.arguments []
    refine ⟨[tc ++ " NOT IN (" ++ joinSep ", "
        ((List.range' (qb.arguments.length + 1)
          (FilterValue.to_bindable_strings v).length).map
          (fun i => pgPlaceholder i ++ pgTypeCast (effectiveFieldType ft v))) ++ ")"],
      FilterValue.to_bindable_strings v, ?_, ?_, ?_⟩
    · simp only [applyFilterOn, hd, postgresDialect]
      rw [hfold]
      simp
    · simp only [applyFilterOn, hd, postgresDialect]
      rw [hfold]
    · exact aligned_one _ _ (FilterValue.to_bindable_strings v).length
        (mentions_in_cond tc " NOT IN (" _ (qb.arguments.length + 1)
          (FilterValue.to_bindable_strings v).length htc (by decide) hcast hch)
  | between =>
    by_cases hlen : (FilterValue.to_bindable_strings v).length ≥ 2
    · refine ⟨[tc ++ " BETWEEN " ++ pgPlaceholder (qb.arguments.length + 1) ++
          pgTypeCast (effectiveFieldType ft v) ++ " AND " ++
          pgPlaceholder (qb.arguments.length + 1 + 1) ++
          pgTypeCast (effectiveFieldType ft v)],
        [(FilterValue.to_bindable_strings v).getD 0 "",
        (FilterValue.to_bindable_strings v).getD 1 ""],
        by simp [applyFilterOn, hd, postgresDialect, if_pos hlen],
        by simp [applyFilterOn, hd, postgresDialect, if_pos hlen], ?_⟩
      apply aligned_one _ _ 2
      rw [show qb.arguments.length + 1 + 1 = qb.arguments.length + 2 from rfl] at *
      have := mentions_between tc (pgTypeCast (effectiveFieldType ft v))
        (qb.arguments.length + 1) htc hcast hch
      rw [show (List.range' (qb.arguments.length + 1) 2).map natDigitString =
        [natDigitString (qb.arguments.length + 1),
          natDigitString (qb.arguments.length + 1 + 1)] from rfl]
      simpa using this
    · exact ⟨[], [], by simp [applyFilterOn, if_neg hlen],
        by simp [applyFilterOn, if_neg hlen],
        by simpa using PlaceholderAligned.nil qb.arguments.length⟩

theorem applyFilterOn_static (qb : QueryBuilder) (tc : String) (ft : FieldType)
    (f : QueryFilter) :
    (applyFilterOn qb tc ft f).mappers = qb.mappers ∧
      (applyFilterOn qb tc ft f).dialect = qb.dialect ∧
      (applyFilterOn qb tc ft f).tablePrefixOpt = qb.tablePrefixOpt ∧
      (applyFilterOn qb tc ft f).computed_properties = qb.computed_properties := by
  obtain ⟨fl, op, v⟩ := f
  cases op <;> refine ⟨?_, ?_, ?_, ?_⟩ <;> simp only [applyFilterOn] <;>
    first
      | rfl
      | (split <;> rfl)

theorem foldl_activate_joins_static (props : List ComputedProperty) (qb : QueryBuilder) :
    (props.foldl QueryBuilder.activate_joins qb).mappers = qb.mappers ∧
      (props.foldl QueryBuilder.activate_joins qb).dialect = qb.dialect ∧
      (props.foldl QueryBuilder.activate_joins qb).tablePrefixOpt = qb.tablePrefixOpt ∧
      (props.foldl QueryBuilder.activate_joins qb).computed_properties =
        qb.computed_properties := by
  induction props generalizing qb with
  | nil => exact ⟨rfl, rfl, rfl, rfl⟩
  | cons p ps ih =>
    simp only [List.foldl_cons]
    exact ih (qb.activate_joins p)

theorem applyFilter_seg (qb : QueryBuilder) (f : QueryFilter)
    (hd : qb.dialect = postgresDialect)
    (hpre : ∀ pre, qb.tablePrefixOpt = some pre → dollarFree pre = true)
    (hexpr : ∀ e ∈ qb.computed_properties, dollarFree e.2.expression = true)
    (hfield : dollarFree f.field = true) :
    ∃ (newConds newArgs : List String),
      (applyFilter qb f).conditions = qb.conditions ++ newConds ∧
        (applyFilter qb f).arguments = qb.arguments ++ newArgs ∧
        PlaceholderAligned newConds qb.arguments.length
          (qb.arguments.length + newArgs.length) ∧
        (applyFilter qb f).mappers = qb.mappers ∧
        (applyFilter qb f).dialect = qb.dialect ∧
        (applyFilter qb f).tablePrefixOpt = qb.tablePrefixOpt ∧
        (applyFilter qb f).computed_properties = qb.computed_properties := by
  unfold applyFilter
  split
  · rename_i prop hcp
    have hpropexpr : dollarFree prop.expression = true :=
      hexpr (f.field, prop) (lookup_mem _ _ _ hcp)
    obtain ⟨nc, na, h1, h2, h3⟩ :=
      applyFilterOn_seg (qb.activate_joins prop) prop.expression prop.field_type f
        hd hpropexpr
    obtain ⟨s1, s2, s3, s4⟩ :=
      applyFilterOn_static (qb.activate_joins prop) prop.expression prop.field_type f
    exact ⟨nc, na, h1, h2, h3, s1, s2, s3, s4⟩
  · rename_i hcp
    by_cases hsafe : qb.is_column_safe f.field
    · rw [if_neg (by simp [hsafe])]
      obtain ⟨nc, na, h1, h2, h3⟩ :=
        applyFilterOn_seg qb (qb.format_column f.field)
          ((qb.field_meta.lookup f.field).getD FieldType.unknown) f hd
          (format_column_dollarFree qb f.field hd hpre hfield)
      obtain ⟨s1, s2, s3, s4⟩ :=
        applyFilterOn_static qb (qb.format_column f.field)
          ((qb.field_meta.lookup f.field).getD FieldType.unknown) f
      exact ⟨nc, na, h1, h2, h3, s1, s2, s3, s4⟩
    · rw [if_pos (by simp [hsafe])]
      exact ⟨[], [], by simp, by simp,
        by simpa using PlaceholderAligned.nil qb.arguments.length, rfl, rfl, rfl, rfl⟩

theorem foldl_applyFilter_seg (fs : List QueryFilter) (qb : QueryBuilder)
    (hd : qb.dialect = postgresDialect)
    (hpre : ∀ pre, qb.tablePrefixOpt = some pre → dollarFree pre = true)
    (hexpr : ∀ e ∈ qb.computed_properties, dollarFree e.2.expression = true)
    (hf : ∀ f ∈ fs, dollarFree f.field = true) :
    ∃ (newConds newArgs : List String),
      (fs.foldl applyFilter qb).conditions = qb.conditions ++ newConds ∧
        (fs.foldl applyFilter qb).arguments = qb.arguments ++ newArgs ∧
        PlaceholderAligned newConds qb.arguments.length
          (qb.arguments.length + newArgs.length) ∧
        (fs.foldl applyFilter qb).mappers = qb.mappers ∧
        (fs.foldl applyFilter qb).dialect = qb.dialect ∧
        (fs.foldl applyFilter qb).tablePrefixOpt = qb.tablePrefixOpt ∧
        (fs.foldl applyFilter qb).computed_properties = qb.computed_properties := by
  induction fs generalizing qb with
  | nil =>
    exact ⟨[], [], by simp, by simp,
      by simpa using PlaceholderAligned.nil qb.arguments.length, rfl, rfl, rfl, rfl⟩
  | cons f fs ih =>
    obtain ⟨nc1, na1, h1, h2, h3, s1, s2, s3, s4⟩ :=
      applyFilter_seg qb f hd hpre hexpr (hf f (List.mem_cons_self f fs))
    obtain ⟨nc2, na2, g1, g2, g3, t1, t2, t3, t4⟩ :=
      ih (applyFilter qb f) (s2.trans hd) (fun pre hp => hpre pre (s3 ▸ hp))
        (fun e he => hexpr e (s4 ▸ he)) (fun x hx => hf x (List.mem_cons_of_mem f hx))
    refine ⟨nc1 ++ nc2, na1 ++ na2, ?_, ?_, ?_, ?_, ?_, ?_, ?_⟩
    · rw [List.foldl_cons, g1, h1, List.append_assoc]
    · rw [List.foldl_cons, g2, h2, List.append_assoc]
    · have hlen : (applyFilter qb f).arguments.length = qb.arguments.length + na1.length := by
        rw [h2, List.length_append]
      rw [hlen] at g3
      have hcomb := PlaceholderAligned.append_seg h3 g3
      rw [List.length_append]
      rw [show qb.arguments.length + (na1.length + na2.length) =
        qb.arguments.length + na1.length + na2.length from by omega]
      exact hcomb
    · rw [List.foldl_cons, t1, s1]
    · rw [List.foldl_cons, t2, s2]
    · rw [List.foldl_cons, t3, s3]
    · rw [List.foldl_cons, t4, s4]

theorem mentions_search_cond (k : Nat) (frags : List String)
    (hf : ∀ f ∈ frags, FragShape f k) (hne : frags ≠ []) :
    placeholderMentions ("(" ++ joinSep " OR " frags ++ ")") = [natDigitString k] := by
  have hocc : placeholderOccurrences ("(" ++ joinSep " OR " frags ++ ")") =
      List.replicate frags.length (natDigitString k) := by
    unfold placeholderOccurrences
    rw [strData_append, strData_append]
    rw [show ("(" : String).data = ['('] from rfl, show (")" : String).data = [')'] from rfl]
    rw [List.append_assoc, show (['('] : List Char) ++ ((joinSep " OR " frags).data ++ [')']) =
      '(' :: ((joinSep " OR " frags).data ++ [')']) from rfl]
    rw [scanL_cons_ne '(' _ (by decide)]
    rw [scanL_join_frags k frags hf [')'] (by decide) (by decide)]
    rw [List.map_replicate]
    rfl
  unfold placeholderMentions
  rw [hocc]
  cases hfr : frags with
  | nil => exact absurd hfr hne
  | cons f fs => exact dedup_replicate_succ (natDigitString k) fs.length

theorem with_search_seg (qb : QueryBuilder) (p : QueryParams)
    (hd : qb.dialect = postgresDialect)
    (hmap : qb.mappers = [])
    (hpre : ∀ pre, qb.tablePrefixOpt = some pre → dollarFree pre = true)
    (hexpr : ∀ e ∈ qb.computed_properties, dollarFree e.2.expression = true)
    (hcols : ∀ cols, p.search.search_columns = some cols →
      ∀ c ∈ cols, dollarFree c = true) :
    ∃ (newConds newArgs : List String),
      (qb.with_search p).conditions = qb.conditions ++ newConds ∧
        (qb.with_search p).arguments = qb.arguments ++ newArgs ∧
        PlaceholderAligned newConds qb.arguments.length
          (qb.arguments.length + newArgs.length) ∧
        (qb.with_search p).mappers = qb.mappers ∧
        (qb.with_search p).dialect = qb.dialect ∧
        (qb.with_search p).tablePrefixOpt = qb.tablePrefixOpt ∧
        (qb.with_search p).computed_properties = qb.computed_properties := by
  have triv : ∀ qb2 : QueryBuilder, qb2 = qb →
      ∃ (newConds newArgs : List String),
      qb2.conditions = qb.conditions ++ newConds ∧
        qb2.arguments = qb.arguments ++ newArgs ∧
        PlaceholderAligned newConds qb.arguments.length
          (qb.arguments.length + newArgs.length) ∧
        qb2.mappers = qb.mappers ∧ qb2.dialect = qb.dialect ∧
        qb2.tablePrefixOpt = qb.tablePrefixOpt ∧
        qb2.computed_properties = qb.computed_properties := by
    rintro qb2 rfl
    exact ⟨[], [], by simp, by simp,
      by simpa using PlaceholderAligned.nil _, rfl, rfl, rfl, rfl⟩
  unfold QueryBuilder.with_search
  cases hs : p.search.search with
  | none => exact triv qb rfl
  | some s =>
    cases hc : p.search.search_columns with
    | none => exact triv qb rfl
    | some cols =>
      dsimp only
      by_cases hguard : (!cols.isEmpty && !(rustTrim s).data.isEmpty) = true
      · rw [if_pos hguard]
        by_cases hres : ((cols.filterMap
            (searchFragment qb (qb.arguments.length + 1) s)).map Prod.fst).isEmpty = true
        · rw [if_neg (by simp only [hres]; decide)]
          obtain ⟨f1, f2⟩ := foldl_activate_joins_fields
            ((cols.filterMap (searchFragment qb (qb.arguments.length + 1) s)).filterMap
              Prod.snd) qb
          obtain ⟨g1, g2, g3, g4⟩ := foldl_activate_joins_static
            ((cols.filterMap (searchFragment qb (qb.arguments.length + 1) s)).filterMap
              Prod.snd) qb
          exact ⟨[], [], by simp [f1], by simp [f2],
            by simpa using PlaceholderAligned.nil qb.arguments.length, g1, g2, g3, g4⟩
        · rw [if_pos (by simp only [hres]; decide)]
          obtain ⟨f1, f2⟩ := foldl_activate_joins_fields
            ((cols.filterMap (searchFragment qb (qb.arguments.length + 1) s)).filterMap
              Prod.snd) qb
          obtain ⟨g1, g2, g3, g4⟩ := foldl_activate_joins_static
            ((cols.filterMap (searchFragment qb (qb.arguments.length + 1) s)).filterMap
              Prod.snd) qb
          refine ⟨["(" ++ joinSep " OR "
              ((cols.filterMap (searchFragment qb (qb.arguments.length + 1) s)).map
                Prod.fst) ++ ")"],
            ["%" ++ s ++ "%"], by simp [f1], by simp [f2], ?_, g1, g2, g3, g4⟩
          apply aligned_one _ _ 1
          rw [show (List.range' (qb.arguments.length + 1) 1).map natDigitString =
            [natDigitString (qb.arguments.length + 1)] from rfl]
          apply mentions_search_cond
          · intro f hf
            obtain ⟨x, hxmem, hxf⟩ := List.mem_map.mp hf
            obtain ⟨c, hcmem, hcx⟩ := List.mem_filterMap.mp hxmem
            rw [← hxf]
            exact searchFragment_fragShape qb _ s c x hd hmap hpre hexpr
              (hcols cols hc c hcmem) hcx
          · rw [← List.isEmpty_eq_false]
            simpa using hres
      · rw [if_neg hguard]
        exact triv qb rfl

theorem applyBuilderOp_seg (qb : QueryBuilder) (op : BuilderOp)
    (hd : qb.dialect = postgresDialect) (hmap : qb.mappers = [])
    (hpre : ∀ pre, qb.tablePrefixOpt = some pre → dollarFree pre = true)
    (hexpr : ∀ e ∈ qb.computed_properties, dollarFree e.2.expression = true)
    (hop : (BuilderOp.params op).placeholderClean) :
    ∃ (newConds newArgs : List String),
      (applyBuilderOp qb op).conditions = qb.conditions ++ newConds ∧
        (applyBuilderOp qb op).arguments = qb.arguments ++ newArgs ∧
        PlaceholderAligned newConds qb.arguments.length
          (qb.arguments.length + newArgs.length) ∧
        (applyBuilderOp qb op).mappers = qb.mappers ∧
        (applyBuilderOp qb op).dialect = qb.dialect ∧
        (applyBuilderOp qb op).tablePrefixOpt = qb.tablePrefixOpt ∧
        (applyBuilderOp qb op).computed_properties = qb.computed_properties := by
  cases op with
  | search p =>
    exact with_search_seg qb p hd hmap hpre hexpr hop.2
  | filters p =>
    exact foldl_applyFilter_seg p.filters qb hd hpre hexpr hop.1

/-- C1: over any sequence of `with_search`/`with_filters` calls on a Postgres
builder (no custom mappers, no `$` in identifiers or computed expressions),
the condition list and the positional argument list stay in lockstep: reading
the conditions in order, each condition mentions exactly the placeholder
ordinals of the arguments bound for it, numbered consecutively from the
number of arguments bound before it plus 1, and together they account for
the whole argument list. -/
theorem c1_condition_argument_lockstep (qb0 : QueryBuilder) (ops : List BuilderOp)
    (hd : qb0.dialect = postgresDialect) (hmap : qb0.mappers = [])
    (hpre : ∀ pre, qb0.tablePrefixOpt = some pre → dollarFree pre = true)
    (hexpr : ∀ e ∈ qb0.computed_properties, dollarFree e.2.expression = true)
    (hal : PlaceholderAligned qb0.conditions 0 qb0.arguments.length)
    (hops : ∀ op ∈ ops, (BuilderOp.params op).placeholderClean) :
    PlaceholderAligned (applyBuilderOps qb0 ops).conditions 0
      (applyBuilderOps qb0 ops).arguments.length := by
  induction ops generalizing qb0 with
  | nil => simpa [applyBuilderOps] using hal
  | cons op rest ih =>
    obtain ⟨nc, na, h1, h2, h3, s1, s2, s3, s4⟩ :=
      applyBuilderOp_seg qb0 op hd hmap hpre hexpr
        (hops op (List.mem_cons_self op rest))
    have hal1 : PlaceholderAligned (applyBuilderOp qb0 op).conditions 0
        (applyBuilderOp qb0 op).arguments.length := by
      rw [h1, h2, List.length_append]
      exact PlaceholderAligned.append_seg hal h3
    have := ih (applyBuilderOp qb0 op) (s2.trans hd) (s1.trans hmap)
      (fun pre hp => hpre pre (s3 ▸ hp)) (fun e he => hexpr e (s4 ▸ he)) hal1
      (fun x hx => hops x (List.mem_cons_of_mem op hx))
    simpa [applyBuilderOps] using this

/-- Witness for C1: a search followed by an Eq filter and a two-element In
filter on the default Postgres builder. -/
theorem c1_condition_argument_lockstep_witness :
    PlaceholderAligned
      ((applyBuilderOps (mkPostgresBuilder [("id", FieldType.int), ("name", FieldType.string)])
          [BuilderOp.search (mkSearchParams (some "john") (some ["name"])),
            BuilderOp.filters (mkFilterParams
              [⟨"id", .eq, .int 5⟩, ⟨"id", .inOp, .array [.int 1, .int 2]⟩])]).conditions)
      0
      ((applyBuilderOps (mkPostgresBuilder [("id", FieldType.int), ("name", FieldType.string)])
          [BuilderOp.search (mkSearchParams (some "john") (some ["name"])),
            BuilderOp.filters (mkFilterParams
              [⟨"id", .eq, .int 5⟩, ⟨"id", .inOp, .array [.int 1, .int 2]⟩])]).arguments.length) :=
  c1_condition_argument_lockstep
    (mkPostgresBuilder [("id", FieldType.int), ("name", FieldType.string)])
    [BuilderOp.search (mkSearchParams (some "john") (some ["name"])),
      BuilderOp.filters (mkFilterParams
        [⟨"id", .eq, .int 5⟩, ⟨"id", .inOp, .array [.int 1, .int 2]⟩])]
    rfl rfl
    (by intro pre h; simp [mkPostgresBuilder] at h)
    (by intro e he; simp [mkPostgresBuilder] at he)
    (PlaceholderAligned.nil 0)
    (by
      intro op hop
      simp only [List.mem_cons, List.not_mem_nil, or_false] at hop
      rcases hop with rfl | rfl
      · refine ⟨?_, ?_⟩
        · intro f hf
          simp [BuilderOp.params, mkSearchParams] at hf
        · intro cols hcc c hc
          simp [BuilderOp.params, mkSearchParams] at hcc
          subst hcc
          simp at hc
          subst hc
          decide
      · refine ⟨?_, ?_⟩
        · intro f hf
          simp [BuilderOp.params, mkFilterParams] at hf
          rcases hf with rfl | rfl <;> decide
        · intro cols hcc
          simp [BuilderOp.params, mkFilterParams] at hcc)
